import Mathlib

/-!
# LargeSceneryRemoveAction

A shallow embedding of `src/openrct2/actions/LargeSceneryRemoveAction.cpp`
(OpenRCT2) and theorems about its `Query`, `Execute`, `Serialise` and
`FindLargeSceneryElement` member functions.

Conventions of the embedding:

* `int32_t` values are `Int`s; arithmetic on coordinates goes through `wrap32`.
* A `TileElement*` into the stack of a tile is the index of the element in the
  list of elements of that tile; a null pointer is `none`.
* The in-band "last for tile" terminator is the end of the per-tile list.
* The sentinel-terminated `tiles` array of a scenery entry is a list; the
  per-fragment loops stop at the first tile whose `x_offset` is `-1`
  (or at the end of the stored list).
* `Query` and `Execute` return the `Result` together with the world they leave.
-/

namespace OpenRCT2

/-! ## Machine integers and coordinates -/

/-- Two's-complement reduction of an integer to the `int32_t` range. -/
def wrap32 (v : Int) : Int := (v + 2147483648) % 4294967296 - 2147483648

/-- The `int32_t` range. -/
def InInt32 (v : Int) : Prop := -2147483648 ≤ v ∧ v < 2147483648

instance (v : Int) : Decidable (InInt32 v) := by unfold InInt32; infer_instance

structure CoordsXY where
  x : Int
  y : Int
deriving DecidableEq, Repr

structure CoordsXYZ where
  x : Int
  y : Int
  z : Int
deriving DecidableEq, Repr

structure CoordsXYZD where
  x : Int
  y : Int
  z : Int
  direction : Nat
deriving DecidableEq, Repr

/-- Modelled from the spec: `CoordsXY::Rotate` is declared outside this file. It turns an
offset by 90° × direction, the direction being taken modulo 4; negation is `int32_t`
negation. -/
def CoordsXY.Rotate (c : CoordsXY) (direction : Nat) : CoordsXY :=
  match direction % 4 with
  | 0 => c
  | 1 => ⟨c.y, wrap32 (-c.x)⟩
  | 2 => ⟨wrap32 (-c.x), wrap32 (-c.y)⟩
  | _ => ⟨wrap32 (-c.y), c.x⟩

/-- Component-wise `CoordsXYZ::operator+` on `int32_t` fields. -/
def CoordsXYZ.add (a b : CoordsXYZ) : CoordsXYZ :=
  ⟨wrap32 (a.x + b.x), wrap32 (a.y + b.y), wrap32 (a.z + b.z)⟩

/-- Component-wise `CoordsXYZ::operator-` on `int32_t` fields. -/
def CoordsXYZ.sub (a b : CoordsXYZ) : CoordsXYZ :=
  ⟨wrap32 (a.x - b.x), wrap32 (a.y - b.y), wrap32 (a.z - b.z)⟩

/-! ## Tile elements, scenery entries and the world -/

inductive TileElementType where
  | Surface | Path | Track | SmallScenery | Entrance | Wall | LargeScenery | Banner
deriving DecidableEq, Repr

/-- A tile element, seen through the accessors the action uses: `GetType`, `GetBaseZ`,
`GetDirection`, `GetSequenceIndex`, `GetEntryIndex` (behind `GetEntry`), `IsGhost`,
`IsAccounted`, and the banner association that `RemoveBannerEntry` detaches. -/
structure TileElement where
  type : TileElementType
  baseZ : Int
  direction : Nat
  sequenceIndex : Nat
  entryIndex : Nat
  isGhost : Bool
  isAccounted : Bool
  banner : Option Nat
deriving DecidableEq, Repr

/-- One `rct_large_scenery_tile`: the offsets of a fragment (`int16_t` fields). -/
structure LargeSceneryTile where
  x_offset : Int
  y_offset : Int
  z_offset : Int
deriving DecidableEq, Repr

/-- The `large_scenery` part of an `rct_scenery_entry`: the sentinel-terminated tile array
and the removal price (an `int16_t`, so that `removal_price * 10` cannot overflow the
`money32` cost). -/
structure SceneryEntry where
  tiles : List LargeSceneryTile
  removal_price : Int
deriving DecidableEq, Repr

/-- The world the action runs against. `tiles tx ty` is the element stack of the tile with
tile coordinates `(tx, ty)` (empty when there is none); the other fields are the services
and ambient globals the action consumes: the object table behind `GetEntry`,
`map_is_location_owned`, `LocationValid`, `tile_element_height`, `gScreenFlags` and
`gCheatsSandboxMode`. -/
structure World where
  tiles : Int → Int → List TileElement
  entries : Nat → Option SceneryEntry
  owned : CoordsXYZ → Bool
  valid : CoordsXY → Bool
  height : CoordsXY → Int
  gScreenFlags : Nat
  gCheatsSandboxMode : Bool

/-! ## Flags and results -/

def GAME_COMMAND_FLAG_GHOST : Nat := 64

def GAME_COMMAND_FLAG_PATH_SCENERY : Nat := 128

def SCREEN_FLAGS_SCENARIO_EDITOR : Nat := 2

/-- The C test `flags & mask` used as a condition. -/
def hasFlag (flags mask : Nat) : Bool := flags &&& mask != 0

inductive Status where
  | Ok | InvalidParameters | Disallowed | NoClearance | NotOwned | Unknown
deriving DecidableEq, Repr

inductive StringId where
  | STR_NONE
  | STR_INVALID_SELECTION_OF_OBJECTS
  | STR_CANT_REMOVE_THIS
  | STR_LAND_NOT_OWNED_BY_PARK
deriving DecidableEq, Repr

inductive ExpenditureType where
  | RideConstruction | RideRunningCosts | LandPurchase | Landscaping | Count
deriving DecidableEq, Repr

structure Result where
  Error : Status
  ErrorTitle : StringId
  ErrorMessage : StringId
  Position : CoordsXYZ
  Cost : Int
  Expenditure : ExpenditureType
deriving DecidableEq, Repr

def LOCATION_NULL : Int := -32768

/-- Modelled from the spec: the `GameActions::Result` class is declared outside this file.
A newly constructed Result has status success, no message and cost zero ("cost defaults to
zero"); until a caller sets them its position and expenditure category are the defaults of
the class, `LOCATION_NULL` in each coordinate and `Count`. -/
def Result.fresh : Result :=
  { Error := Status.Ok
    ErrorTitle := StringId.STR_NONE
    ErrorMessage := StringId.STR_NONE
    Position := ⟨LOCATION_NULL, LOCATION_NULL, LOCATION_NULL⟩
    Cost := 0
    Expenditure := ExpenditureType.Count }

/-- Modelled from the spec: `MakeResult(status, message)` is declared outside this file. It
constructs a new Result from the status and the message alone. -/
def MakeResult (error : Status) (message : StringId) : Result :=
  { Result.fresh with Error := error, ErrorMessage := message }

/-- Modelled from the spec: `MakeResult(status, title, message)` is declared outside this
file. It constructs a new Result from the status, the message and the sub-message alone. -/
def MakeResult3 (error : Status) (title message : StringId) : Result :=
  { Result.fresh with Error := error, ErrorTitle := title, ErrorMessage := message }

/-! ## The action -/

/-- The action object: the `GameAction` base fields read by `GetFlags` and written by
`GameAction::Serialise`, and the two parameters `_loc` and `_tileIndex`. -/
structure LargeSceneryRemoveAction where
  networkId : Nat
  flags : Nat
  playerId : Int
  loc : CoordsXYZD
  tileIndex : Nat
deriving DecidableEq, Repr

/-- Scan of a tile's element stack by a `do { ... continue ... } while (!last)` loop:
the index of the first element that passes every test of the loop body. -/
def scanStack (p : TileElement → Bool) : List TileElement → Option Nat
  | [] => none
  | e :: rest => if p e then some 0 else (scanStack p rest).map (· + 1)

/-- Modelled from the spec: `map_get_first_element_at` is declared outside this file
("get element stack at position"). Tiles are 32 units wide. -/
def map_get_first_element_at (w : World) (x y : Int) : List TileElement :=
  w.tiles (x / 32) (y / 32)

/-- The tests of the loop body of `FindLargeSceneryElement`. -/
def findTest (a : LargeSceneryRemoveAction) (e : TileElement) : Bool :=
  e.type == TileElementType.LargeScenery
    && e.baseZ == a.loc.z
    && e.sequenceIndex == a.tileIndex
    && e.direction == a.loc.direction
    && !(hasFlag a.flags GAME_COMMAND_FLAG_GHOST && e.isGhost == false)

def FindLargeSceneryElement (a : LargeSceneryRemoveAction) (w : World) : Option Nat :=
  scanStack (findTest a) (map_get_first_element_at w a.loc.x a.loc.y)

/-- Replace the `k`-th element of a stack by its image under `f`. -/
def modifyNth (f : TileElement → TileElement) : List TileElement → Nat → List TileElement
  | [], _ => []
  | e :: rest, 0 => f e :: rest
  | e :: rest, k + 1 => e :: modifyNth f rest k

/-- The world with the stack of the tile holding `(x, y)` replaced. -/
def World.setStack (w : World) (x y : Int) (s : List TileElement) : World :=
  { w with tiles := fun tx ty => if tx = x / 32 ∧ ty = y / 32 then s else w.tiles tx ty }

/-- The element a pointer returned by `FindLargeSceneryElement` points at. -/
def resolved (a : LargeSceneryRemoveAction) (w : World) (idx : Nat) : Option TileElement :=
  (map_get_first_element_at w a.loc.x a.loc.y)[idx]?

/-- `GetEntry()` on the resolved element. -/
def GetEntry (a : LargeSceneryRemoveAction) (w : World) (idx : Nat) : Option SceneryEntry :=
  match resolved a w idx with
  | some e => w.entries e.entryIndex
  | none => none

/-- `IsAccounted()` on the resolved element. -/
def IsAccounted (a : LargeSceneryRemoveAction) (w : World) (idx : Nat) : Bool :=
  match resolved a w idx with
  | some e => e.isAccounted
  | none => false

/-- `SetIsAccounted(true)` on the resolved element. -/
def SetIsAccounted (a : LargeSceneryRemoveAction) (w : World) (idx : Nat) : World :=
  w.setStack a.loc.x a.loc.y
    (modifyNth (fun e => { e with isAccounted := true })
      (map_get_first_element_at w a.loc.x a.loc.y) idx)

/-- Modelled from the spec: `RemoveBannerEntry` is declared outside this file ("detach
banner association from this element"). -/
def RemoveBannerEntry (a : LargeSceneryRemoveAction) (w : World) (idx : Nat) : World :=
  w.setStack a.loc.x a.loc.y
    (modifyNth (fun e => { e with banner := none })
      (map_get_first_element_at w a.loc.x a.loc.y) idx)

/-- Read `tiles[i]` of the sentinel-terminated array; at or past the end of the stored
list the read yields the sentinel. -/
def SceneryEntry.tileAt (entry : SceneryEntry) (i : Nat) : LargeSceneryTile :=
  entry.tiles.getD i ⟨-1, -1, -1⟩

/-- The offset of a fragment rotated by the command's direction:
`CoordsXYZ{ CoordsXY{ x_offset, y_offset }.Rotate(direction), z_offset }`. -/
def rotatedOffset (t : LargeSceneryTile) (direction : Nat) : CoordsXYZ :=
  let r := (CoordsXY.mk t.x_offset t.y_offset).Rotate direction
  ⟨r.x, r.y, t.z_offset⟩

/-- The `firstTile` of `Query` and `Execute`: the command's location minus the rotated
offset of the queried fragment. -/
def firstTile (a : LargeSceneryRemoveAction) (entry : SceneryEntry) : CoordsXYZ :=
  (CoordsXYZ.mk a.loc.x a.loc.y a.loc.z).sub
    (rotatedOffset (entry.tileAt a.tileIndex) a.loc.direction)

/-- The `currentTile` of a loop iteration on the fragment `t`. -/
def currentTile (a : LargeSceneryRemoveAction) (entry : SceneryEntry)
    (t : LargeSceneryTile) : CoordsXYZ :=
  (firstTile a entry).add (rotatedOffset t a.loc.direction)

/-- The guard `!(gScreenFlags & SCREEN_FLAGS_SCENARIO_EDITOR) && !gCheatsSandboxMode`. -/
def ownershipChecked (w : World) : Bool :=
  !(hasFlag w.gScreenFlags SCREEN_FLAGS_SCENARIO_EDITOR) && !w.gCheatsSandboxMode

/-- The Result of the two no-clearance returns. -/
def noClearance : Result :=
  MakeResult3 Status.NoClearance StringId.STR_CANT_REMOVE_THIS
    StringId.STR_LAND_NOT_OWNED_BY_PARK

/-- The outcome of the per-fragment loop of `Query`: an early return, if any, the world
and the `calculate_cost` variable. -/
structure QueryLoop where
  early : Option Result
  world : World
  calculate_cost : Bool

/-- The per-fragment loop of `Query`, on the fragments from the current index on. -/
def queryLoop (a : LargeSceneryRemoveAction) (entry : SceneryEntry) (idx : Nat) :
    List LargeSceneryTile → World → Bool → QueryLoop
  | [], w, cc => ⟨none, w, cc⟩
  | t :: rest, w, cc =>
    if t.x_offset = -1 then ⟨none, w, cc⟩
    else if ownershipChecked w && !w.owned (currentTile a entry t) then
      ⟨some noClearance, w, cc⟩
    else if !w.valid ⟨(currentTile a entry t).x, (currentTile a entry t).y⟩ then
      ⟨some noClearance, w, cc⟩
    else if hasFlag a.flags GAME_COMMAND_FLAG_PATH_SCENERY then
      queryLoop a entry idx rest (SetIsAccounted a w idx)
        (if IsAccounted a w idx then false else cc)
    else
      queryLoop a entry idx rest w cc

/-- The Result `res` that `Query` and `Execute` fill in before resolving the target. -/
def initialResult (a : LargeSceneryRemoveAction) (w : World) : Result :=
  { Result.fresh with
    Position := ⟨wrap32 (a.loc.x + 16), wrap32 (a.loc.y + 16), w.height ⟨a.loc.x, a.loc.y⟩⟩
    Expenditure := ExpenditureType.Landscaping
    Cost := 0 }

def Query (a : LargeSceneryRemoveAction) (w : World) : Result × World :=
  match FindLargeSceneryElement a w with
  | none => (MakeResult Status.InvalidParameters StringId.STR_INVALID_SELECTION_OF_OBJECTS, w)
  | some idx =>
    match GetEntry a w idx with
    | none => (MakeResult Status.Unknown StringId.STR_CANT_REMOVE_THIS, w)
    | some entry =>
      let out := queryLoop a entry idx entry.tiles w true
      match out.early with
      | some failure => (failure, out.world)
      | none =>
        if out.calculate_cost then
          ({ initialResult a w with Cost := entry.removal_price * 10 }, out.world)
        else
          (initialResult a w, out.world)

/-- The tests of the inner loop of `Execute` on the fragment with index `i`, whose
`currentTile` has height `z`. -/
def removeTest (a : LargeSceneryRemoveAction) (i : Nat) (z : Int) (e : TileElement) : Bool :=
  e.type == TileElementType.LargeScenery
    && e.direction == a.loc.direction
    && e.sequenceIndex == i
    && e.baseZ == z
    && !(hasFlag a.flags GAME_COMMAND_FLAG_GHOST && e.isGhost == false)

/-- Modelled from the spec: `tile_element_remove` is declared outside this file ("remove
this element and mark its tile dirty"). The element leaves the stack of its tile. -/
def tile_element_remove (w : World) (x y : Int) (k : Nat) : World :=
  w.setStack x y ((map_get_first_element_at w x y).eraseIdx k)

/-- The per-fragment loop of `Execute`, on the fragments from index `i` on: an early
return, if any, and the world. -/
def executeLoop (a : LargeSceneryRemoveAction) (entry : SceneryEntry) :
    List LargeSceneryTile → Nat → World → Option Result × World
  | [], _, w => (none, w)
  | t :: rest, i, w =>
    if t.x_offset = -1 then (none, w)
    else if ownershipChecked w && !w.owned (currentTile a entry t) then
      (some noClearance, w)
    else
      match scanStack (removeTest a i (currentTile a entry t).z)
          (map_get_first_element_at w (currentTile a entry t).x (currentTile a entry t).y) with
      | some k =>
        executeLoop a entry rest (i + 1)
          (tile_element_remove w (currentTile a entry t).x (currentTile a entry t).y k)
      | none => executeLoop a entry rest (i + 1) w

def Execute (a : LargeSceneryRemoveAction) (w : World) : Result × World :=
  match FindLargeSceneryElement a w with
  | none => (MakeResult Status.InvalidParameters StringId.STR_INVALID_SELECTION_OF_OBJECTS, w)
  | some idx =>
    match GetEntry a w idx with
    | none => (MakeResult Status.Unknown StringId.STR_CANT_REMOVE_THIS, w)
    | some entry =>
      let out := executeLoop a entry entry.tiles 0 (RemoveBannerEntry a w idx)
      match out.1 with
      | some failure => (failure, out.2)
      | none => ({ initialResult a w with Cost := entry.removal_price * 10 }, out.2)

/-- An element with its banner association detached, as `RemoveBannerEntry` leaves it. -/
def detachBanner (e : TileElement) : TileElement := { e with banner := none }

/-- One iteration of the per-fragment loop of `Execute` past its ownership check: the
inner scan for the element of fragment `i` and its removal, if it is found. -/
def removeFragment (a : LargeSceneryRemoveAction) (entry : SceneryEntry)
    (t : LargeSceneryTile) (i : Nat) (w : World) : World :=
  match scanStack (removeTest a i (currentTile a entry t).z)
      (map_get_first_element_at w (currentTile a entry t).x (currentTile a entry t).y) with
  | some k => tile_element_remove w (currentTile a entry t).x (currentTile a entry t).y k
  | none => w

/-- The fragments of a definition: the tiles of the array before the sentinel, which are
the tiles the per-fragment loops of `Query` and `Execute` visit. -/
def SceneryEntry.fragments (entry : SceneryEntry) : List LargeSceneryTile :=
  entry.tiles.takeWhile (fun t => t.x_offset != -1)

/-- The definition of the element the command resolves to, when both exist. -/
def queriedEntry (a : LargeSceneryRemoveAction) (w : World) : Option SceneryEntry :=
  (FindLargeSceneryElement a w).bind (GetEntry a w)

/-! ## Parameter visiting and serialisation -/

/-- A field shown to a `GameActionParameterVisitor`: the location or the tile index. -/
inductive Parameter where
  | loc (c : CoordsXYZD)
  | tileIndex (v : Nat)
deriving DecidableEq, Repr

/-- The fields `AcceptParameters` shows to the visitor, in the order of its `Visit` calls. -/
def AcceptParameters (a : LargeSceneryRemoveAction) : List Parameter :=
  [Parameter.loc a.loc, Parameter.tileIndex a.tileIndex]

/-- Big-endian bytes of a `uint8_t`. -/
def encodeU8 (v : Nat) : List Nat := [v % 256]

/-- Big-endian bytes of a `uint16_t`. -/
def encodeU16 (v : Nat) : List Nat := [v / 256 % 256, v % 256]

/-- Big-endian bytes of a `uint32_t`. -/
def encodeU32 (v : Nat) : List Nat :=
  [v / 16777216 % 256, v / 65536 % 256, v / 256 % 256, v % 256]

/-- Big-endian bytes of an `int32_t`, in two's complement. -/
def encodeI32 (v : Int) : List Nat := encodeU32 (v % 4294967296).toNat

/-- Modelled from the spec: the `DataSerialiser` class is declared outside this file. It
wraps a binary stream that is either being written (`isSaving`) or being read; the stream
is the list of bytes written so far, respectively still to be read. -/
structure DataSerialiser where
  isSaving : Bool
  stream : List Nat
deriving DecidableEq, Repr

/-- Modelled from the spec: `stream << field` for a `uint8_t` field is declared outside this
file. When saving the bytes of the field are appended and the field is kept; when loading
the field is read from the head of the stream, and the read fails on a short stream. -/
def DataSerialiser.u8 (ds : DataSerialiser) (v : Nat) : Option (Nat × DataSerialiser) :=
  if ds.isSaving then some (v, { ds with stream := ds.stream ++ encodeU8 v })
  else
    match ds.stream with
    | b0 :: rest => some (b0, { ds with stream := rest })
    | _ => none

/-- Modelled from the spec: `stream << field` for a `uint16_t` field. -/
def DataSerialiser.u16 (ds : DataSerialiser) (v : Nat) : Option (Nat × DataSerialiser) :=
  if ds.isSaving then some (v, { ds with stream := ds.stream ++ encodeU16 v })
  else
    match ds.stream with
    | b0 :: b1 :: rest => some (b0 * 256 + b1, { ds with stream := rest })
    | _ => none

/-- Modelled from the spec: `stream << field` for a `uint32_t` field. -/
def DataSerialiser.u32 (ds : DataSerialiser) (v : Nat) : Option (Nat × DataSerialiser) :=
  if ds.isSaving then some (v, { ds with stream := ds.stream ++ encodeU32 v })
  else
    match ds.stream with
    | b0 :: b1 :: b2 :: b3 :: rest =>
      some (b0 * 16777216 + b1 * 65536 + b2 * 256 + b3, { ds with stream := rest })
    | _ => none

/-- Modelled from the spec: `stream << field` for an `int32_t` field. -/
def DataSerialiser.i32 (ds : DataSerialiser) (v : Int) : Option (Int × DataSerialiser) :=
  if ds.isSaving then some (v, { ds with stream := ds.stream ++ encodeI32 v })
  else
    match ds.stream with
    | b0 :: b1 :: b2 :: b3 :: rest =>
      some (wrap32 ((b0 * 16777216 + b1 * 65536 + b2 * 256 + b3 : Nat) : Int),
        { ds with stream := rest })
    | _ => none

/-- Modelled from the spec: `stream << field` for a `CoordsXYZD` field: x, y, z, then the
direction. -/
def DataSerialiser.coordsXYZD (ds : DataSerialiser) (c : CoordsXYZD) :
    Option (CoordsXYZD × DataSerialiser) :=
  (ds.i32 c.x).bind fun rx =>
  (rx.2.i32 c.y).bind fun ry =>
  (ry.2.i32 c.z).bind fun rz =>
  (rz.2.u8 c.direction).bind fun rd =>
  some (⟨rx.1, ry.1, rz.1, rd.1⟩, rd.2)

/-- Modelled from the spec: `GameAction::Serialise` of the base class is declared outside
this file. It passes the network id, the flags and the player id through the stream. -/
def GameAction_Serialise (a : LargeSceneryRemoveAction) (ds : DataSerialiser) :
    Option (LargeSceneryRemoveAction × DataSerialiser) :=
  (ds.u32 a.networkId).bind fun rn =>
  (rn.2.u32 a.flags).bind fun rf =>
  (rf.2.i32 a.playerId).bind fun rp =>
  some ({ a with networkId := rn.1, flags := rf.1, playerId := rp.1 }, rp.2)

/-- The member function `Serialise`: the base class first, then
`stream << DS_TAG(_loc) << DS_TAG(_tileIndex)`. It returns the action object and the
serialiser as the call leaves them. -/
def Serialise (a : LargeSceneryRemoveAction) (ds : DataSerialiser) :
    Option (LargeSceneryRemoveAction × DataSerialiser) :=
  (GameAction_Serialise a ds).bind fun rb =>
  (rb.2.coordsXYZD rb.1.loc).bind fun rl =>
  (rl.2.u16 rb.1.tileIndex).bind fun rt =>
  some ({ rb.1 with loc := rl.1, tileIndex := rt.1 }, rt.2)

/-- The bytes of one visited field. -/
def Parameter.encode : Parameter → List Nat
  | Parameter.loc c => encodeI32 c.x ++ encodeI32 c.y ++ encodeI32 c.z ++ encodeU8 c.direction
  | Parameter.tileIndex v => encodeU16 v

/-- The bytes of a sequence of visited fields, in order. -/
def encodeParameters : List Parameter → List Nat
  | [] => []
  | q :: rest => q.encode ++ encodeParameters rest

/-- The bytes of the base-class fields. -/
def headerBytes (a : LargeSceneryRemoveAction) : List Nat :=
  encodeU32 a.networkId ++ encodeU32 a.flags ++ encodeI32 a.playerId

/-- The fields of the action are within the ranges of their C++ types: `uint32_t` network
id and flags, `int32_t` player id and coordinates, `uint8_t` direction, `uint16_t` tile
index. -/
def LargeSceneryRemoveAction.WellTyped (a : LargeSceneryRemoveAction) : Prop :=
  a.networkId < 4294967296 ∧ a.flags < 4294967296 ∧ InInt32 a.playerId
    ∧ InInt32 a.loc.x ∧ InInt32 a.loc.y ∧ InInt32 a.loc.z
    ∧ a.loc.direction < 256 ∧ a.tileIndex < 65536

instance (a : LargeSceneryRemoveAction) : Decidable a.WellTyped := by
  unfold LargeSceneryRemoveAction.WellTyped; infer_instance

/-! ## The spec's fragment tiles -/

/-- The `int16_t` range. -/
def InInt16 (v : Int) : Prop := -32768 ≤ v ∧ v < 32768

instance (v : Int) : Decidable (InInt16 v) := by unfold InInt16; infer_instance

/-- The offsets of a fragment are within the range of their `int16_t` fields. -/
def LargeSceneryTile.WellTyped (t : LargeSceneryTile) : Prop :=
  InInt16 t.x_offset ∧ InInt16 t.y_offset ∧ InInt16 t.z_offset

instance (t : LargeSceneryTile) : Decidable t.WellTyped := by
  unfold LargeSceneryTile.WellTyped; infer_instance

/-- The spec's rotation by 90°: one quarter turn of an offset, (x, y) to (y, -x), in
`int32_t` arithmetic. -/
def quarterTurn (c : CoordsXY) : CoordsXY := ⟨c.y, wrap32 (-c.x)⟩

/-- The spec's absolute tile of the fragment `t` for a command at `loc` that queries the
fragment `own` (spec 4.3, steps 3 and 4a): the anchor, which is the location minus the
offset of `own` rotated by 90° × direction, plus the offset of `t` rotated by
90° × direction; heights are not rotated. -/
def specFragmentTile (loc : CoordsXYZD) (own t : LargeSceneryTile) : CoordsXYZ :=
  ⟨wrap32 (wrap32 (loc.x - (Nat.iterate quarterTurn loc.direction
        ⟨own.x_offset, own.y_offset⟩).x)
      + (Nat.iterate quarterTurn loc.direction ⟨t.x_offset, t.y_offset⟩).x),
    wrap32 (wrap32 (loc.y - (Nat.iterate quarterTurn loc.direction
        ⟨own.x_offset, own.y_offset⟩).y)
      + (Nat.iterate quarterTurn loc.direction ⟨t.x_offset, t.y_offset⟩).y),
    wrap32 (wrap32 (loc.z - own.z_offset) + t.z_offset)⟩

/-! ## Concrete worlds -/

/-- A surface element at height 0. -/
def surfaceElement : TileElement :=
  ⟨TileElementType.Surface, 0, 0, 0, 0, false, false, none⟩

/-- A large-scenery element of entry 0 at height 0, direction 0, with the given sequence
index, accounted marker and banner association. -/
def sceneryElement (seq : Nat) (accounted : Bool) (banner : Option Nat) : TileElement :=
  ⟨TileElementType.LargeScenery, 0, 0, seq, 0, false, accounted, banner⟩

/-- A two-tile definition with removal price 5: fragments at offsets (0,0,0) and (32,0,0),
then the sentinel. -/
def twoTileEntry : SceneryEntry :=
  ⟨[⟨0, 0, 0⟩, ⟨32, 0, 0⟩, ⟨-1, -1, -1⟩], 5⟩

/-- A one-tile definition with removal price 5. -/
def oneTileEntry : SceneryEntry :=
  ⟨[⟨0, 0, 0⟩, ⟨-1, -1, -1⟩], 5⟩

/-- The bounds of a 256 × 256 tile map. -/
def inMap (c : CoordsXY) : Bool :=
  decide (0 ≤ c.x ∧ c.x < 8192 ∧ 0 ≤ c.y ∧ c.y < 8192)

/-- A world holding one object of the definition `entry` placed at origin (0,0,0) with
direction 0: its first fragment on tile (0,0), its second, if any, on tile (1,0). -/
def sceneryWorld (entry : SceneryEntry) (accounted : Bool) (owned : CoordsXYZ → Bool) :
    World :=
  { tiles := fun tx ty =>
      if tx = 0 ∧ ty = 0 then [surfaceElement, sceneryElement 0 accounted (some 7)]
      else if tx = 1 ∧ ty = 0 ∧ 2 < entry.tiles.length then
        [surfaceElement, sceneryElement 1 accounted none]
      else []
    entries := fun i => if i = 0 then some entry else none
    owned := owned
    valid := inMap
    height := fun _ => 0
    gScreenFlags := 0
    gCheatsSandboxMode := false }

/-- The removal command with the given flags for the fragment `tileIndex` at `(x, y, 0)`,
direction 0. -/
def removeCommand (flags : Nat) (x y : Int) (tileIndex : Nat) : LargeSceneryRemoveAction :=
  ⟨0, flags, 0, ⟨x, y, 0, 0⟩, tileIndex⟩

/-- A ghost large-scenery element of entry 0 at height 0, direction 0, with the given
sequence index. -/
def ghostElement (seq : Nat) : TileElement :=
  ⟨TileElementType.LargeScenery, 0, 0, seq, 0, true, false, none⟩

/-- A world whose tile (0,0) holds a surface element and the ghost of a one-tile object. -/
def ghostWorld : World :=
  { sceneryWorld oneTileEntry false (fun _ => true) with
    tiles := fun tx ty => if tx = 0 ∧ ty = 0 then [surfaceElement, ghostElement 0] else [] }

/-- The world of `sceneryWorld` with an object table that has lost every definition. -/
def noEntryWorld : World :=
  { sceneryWorld twoTileEntry false (fun _ => true) with entries := fun _ => none }

/-- The two-tile object in sandbox mode on a map that ends before tile (1,0); no tile is
owned by the park. -/
def sandboxWorld : World :=
  { sceneryWorld twoTileEntry false (fun _ => false) with
    valid := fun c => decide (0 ≤ c.x ∧ c.x < 32 ∧ 0 ≤ c.y ∧ c.y < 32)
    gCheatsSandboxMode := true }

/-- The two-tile object with the element of its first fragment missing: tile (0,0) holds
the surface only, tile (1,0) the element of the second fragment. -/
def brokenWorld : World :=
  { sceneryWorld twoTileEntry false (fun _ => true) with
    tiles := fun tx ty =>
      if tx = 0 ∧ ty = 0 then [surfaceElement]
      else if tx = 1 ∧ ty = 0 then [surfaceElement, sceneryElement 1 false none]
      else [] }

/-! ## Helper lemmas -/

theorem scanStack_eq_none (p : TileElement → Bool) (l : List TileElement)
    (h : ∀ e ∈ l, p e = false) : scanStack p l = none := by
  induction l with
  | nil => rfl
  | cons e rest ih =>
    have he : p e = false := h e (List.mem_cons_self e rest)
    have hr : scanStack p rest = none := ih (fun x hx => h x (List.mem_cons_of_mem e hx))
    simp [scanStack, he, hr]

theorem setStack_setStack (w : World) (x y : Int) (s s' : List TileElement) :
    (w.setStack x y s).setStack x y s' = w.setStack x y s' := by
  unfold World.setStack
  congr 1
  funext tx ty
  by_cases h : tx = x / 32 ∧ ty = y / 32 <;> simp [h]

theorem map_get_setStack (w : World) (x y : Int) (s : List TileElement) :
    map_get_first_element_at (w.setStack x y s) x y = s := by
  simp [map_get_first_element_at, World.setStack]

theorem modifyNth_idem (f : TileElement → TileElement) (hf : ∀ e, f (f e) = f e)
    (l : List TileElement) (k : Nat) : modifyNth f (modifyNth f l k) k = modifyNth f l k := by
  induction l generalizing k with
  | nil => rfl
  | cons e rest ih =>
    cases k with
    | zero => simp [modifyNth, hf]
    | succ k => simp [modifyNth, ih]

theorem SetIsAccounted_idem (a : LargeSceneryRemoveAction) (w : World) (idx : Nat) :
    SetIsAccounted a (SetIsAccounted a w idx) idx = SetIsAccounted a w idx := by
  unfold SetIsAccounted
  rw [map_get_setStack, setStack_setStack, modifyNth_idem]
  intro e
  rfl

theorem queryLoop_world (a : LargeSceneryRemoveAction) (entry : SceneryEntry) (idx : Nat)
    (tiles : List LargeSceneryTile) (w : World) (cc : Bool) :
    (queryLoop a entry idx tiles w cc).world = w
      ∨ (hasFlag a.flags GAME_COMMAND_FLAG_PATH_SCENERY = true
          ∧ (queryLoop a entry idx tiles w cc).world = SetIsAccounted a w idx) := by
  induction tiles generalizing w cc with
  | nil => exact Or.inl rfl
  | cons t rest ih =>
    unfold queryLoop
    split
    · exact Or.inl rfl
    · split
      · exact Or.inl rfl
      · split
        · exact Or.inl rfl
        · split
          · rename_i hflag
            right
            refine ⟨hflag, ?_⟩
            rcases ih (SetIsAccounted a w idx) (if IsAccounted a w idx then false else cc) with h | h
            · exact h
            · rw [h.2, SetIsAccounted_idem]
          · exact ih w cc

theorem queryLoop_world_noBatch (a : LargeSceneryRemoveAction) (entry : SceneryEntry)
    (idx : Nat) (tiles : List LargeSceneryTile) (w : World) (cc : Bool)
    (h : hasFlag a.flags GAME_COMMAND_FLAG_PATH_SCENERY = false) :
    (queryLoop a entry idx tiles w cc).world = w := by
  rcases queryLoop_world a entry idx tiles w cc with h' | h'
  · exact h'
  · rw [h] at h'
    exact absurd h'.1 (by simp)

theorem Find_none_of_no_match (a : LargeSceneryRemoveAction) (w : World)
    (h : ∀ e ∈ map_get_first_element_at w a.loc.x a.loc.y,
      ¬ (e.type = TileElementType.LargeScenery ∧ e.baseZ = a.loc.z
          ∧ e.direction = a.loc.direction ∧ e.sequenceIndex = a.tileIndex)) :
    FindLargeSceneryElement a w = none := by
  unfold FindLargeSceneryElement
  apply scanStack_eq_none
  intro e he
  have := h e he
  unfold findTest
  by_contra hc
  simp only [Bool.not_eq_false, Bool.and_eq_true, beq_iff_eq] at hc
  exact this ⟨hc.1.1.1.1, hc.1.1.1.2, hc.1.2, hc.1.1.2⟩

theorem Query_find_none (a : LargeSceneryRemoveAction) (w : World)
    (h : FindLargeSceneryElement a w = none) :
    Query a w
      = (MakeResult Status.InvalidParameters StringId.STR_INVALID_SELECTION_OF_OBJECTS, w) := by
  simp only [Query, h]

theorem Query_entry_none (a : LargeSceneryRemoveAction) (w : World) (idx : Nat)
    (h : FindLargeSceneryElement a w = some idx) (he : GetEntry a w idx = none) :
    Query a w = (MakeResult Status.Unknown StringId.STR_CANT_REMOVE_THIS, w) := by
  simp only [Query, h, he]

theorem Query_early (a : LargeSceneryRemoveAction) (w : World) (idx : Nat)
    (entry : SceneryEntry) (failure : Result)
    (h : FindLargeSceneryElement a w = some idx) (he : GetEntry a w idx = some entry)
    (hl : (queryLoop a entry idx entry.tiles w true).early = some failure) :
    Query a w = (failure, (queryLoop a entry idx entry.tiles w true).world) := by
  simp only [Query, h, he, hl]

theorem Query_done (a : LargeSceneryRemoveAction) (w : World) (idx : Nat)
    (entry : SceneryEntry)
    (h : FindLargeSceneryElement a w = some idx) (he : GetEntry a w idx = some entry)
    (hl : (queryLoop a entry idx entry.tiles w true).early = none) :
    Query a w
      = ({ initialResult a w with
            Cost := if (queryLoop a entry idx entry.tiles w true).calculate_cost
              then entry.removal_price * 10 else 0 },
          (queryLoop a entry idx entry.tiles w true).world) := by
  simp only [Query, h, he, hl]
  split <;> rfl

theorem Execute_find_none (a : LargeSceneryRemoveAction) (w : World)
    (h : FindLargeSceneryElement a w = none) :
    Execute a w
      = (MakeResult Status.InvalidParameters StringId.STR_INVALID_SELECTION_OF_OBJECTS, w) := by
  simp only [Execute, h]

theorem Execute_entry_none (a : LargeSceneryRemoveAction) (w : World) (idx : Nat)
    (h : FindLargeSceneryElement a w = some idx) (he : GetEntry a w idx = none) :
    Execute a w = (MakeResult Status.Unknown StringId.STR_CANT_REMOVE_THIS, w) := by
  simp only [Execute, h, he]

theorem Execute_early (a : LargeSceneryRemoveAction) (w : World) (idx : Nat)
    (entry : SceneryEntry) (failure : Result)
    (h : FindLargeSceneryElement a w = some idx) (he : GetEntry a w idx = some entry)
    (hl : (executeLoop a entry entry.tiles 0 (RemoveBannerEntry a w idx)).1 = some failure) :
    Execute a w
      = (failure, (executeLoop a entry entry.tiles 0 (RemoveBannerEntry a w idx)).2) := by
  simp only [Execute, h, he, hl]

theorem Execute_done (a : LargeSceneryRemoveAction) (w : World) (idx : Nat)
    (entry : SceneryEntry)
    (h : FindLargeSceneryElement a w = some idx) (he : GetEntry a w idx = some entry)
    (hl : (executeLoop a entry entry.tiles 0 (RemoveBannerEntry a w idx)).1 = none) :
    Execute a w
      = ({ initialResult a w with Cost := entry.removal_price * 10 },
          (executeLoop a entry entry.tiles 0 (RemoveBannerEntry a w idx)).2) := by
  simp only [Execute, h, he, hl]

theorem executeLoop_early (a : LargeSceneryRemoveAction) (entry : SceneryEntry)
    (tiles : List LargeSceneryTile) (i : Nat) (w : World) :
    (executeLoop a entry tiles i w).1
      = if (tiles.takeWhile (fun t => t.x_offset != -1)).any
            (fun t => ownershipChecked w && !w.owned (currentTile a entry t))
        then some noClearance else none := by
  induction tiles generalizing i w with
  | nil => rfl
  | cons t rest ih =>
    unfold executeLoop
    by_cases hx : t.x_offset = -1
    · simp [hx, List.takeWhile]
    · have hb : (t.x_offset != -1) = true := by simpa using hx
      have htw : List.takeWhile (fun t => t.x_offset != -1) (t :: rest)
          = t :: List.takeWhile (fun t => t.x_offset != -1) rest := by
        simp [List.takeWhile, hb]
      rw [if_neg hx, htw, List.any_cons]
      by_cases hp : (ownershipChecked w && !w.owned (currentTile a entry t)) = true
      · simp [hp]
      · have hp' : (ownershipChecked w && !w.owned (currentTile a entry t)) = false := by
          simpa using hp
        rw [if_neg hp, hp', Bool.false_or]
        split
        · exact ih _ _
        · exact ih _ _

theorem queryLoop_early (a : LargeSceneryRemoveAction) (entry : SceneryEntry) (idx : Nat)
    (tiles : List LargeSceneryTile) (w : World) (cc : Bool) :
    (queryLoop a entry idx tiles w cc).early
      = if (tiles.takeWhile (fun t => t.x_offset != -1)).any
            (fun t => (ownershipChecked w && !w.owned (currentTile a entry t))
              || !w.valid ⟨(currentTile a entry t).x, (currentTile a entry t).y⟩)
        then some noClearance else none := by
  induction tiles generalizing w cc with
  | nil => rfl
  | cons t rest ih =>
    unfold queryLoop
    by_cases hx : t.x_offset = -1
    · simp [hx, List.takeWhile]
    · have hb : (t.x_offset != -1) = true := by simpa using hx
      have htw : List.takeWhile (fun t => t.x_offset != -1) (t :: rest)
          = t :: List.takeWhile (fun t => t.x_offset != -1) rest := by
        simp [List.takeWhile, hb]
      rw [if_neg hx, htw, List.any_cons]
      by_cases hp : (ownershipChecked w && !w.owned (currentTile a entry t)) = true
      · simp [hp]
      · have hp' : (ownershipChecked w && !w.owned (currentTile a entry t)) = false := by
          simpa using hp
        rw [if_neg hp, hp', Bool.false_or]
        by_cases hv : (!w.valid ⟨(currentTile a entry t).x, (currentTile a entry t).y⟩) = true
        · simp [hv]
        · have hv' : (!w.valid ⟨(currentTile a entry t).x, (currentTile a entry t).y⟩) = false := by simpa using hv
          rw [if_neg hv, hv', Bool.false_or]
          split
          · exact ih _ _
          · exact ih _ _

theorem queryLoop_cost_noBatch (a : LargeSceneryRemoveAction) (entry : SceneryEntry)
    (idx : Nat) (tiles : List LargeSceneryTile) (w : World) (cc : Bool)
    (h : hasFlag a.flags GAME_COMMAND_FLAG_PATH_SCENERY = false)
    (hl : (queryLoop a entry idx tiles w cc).early = none) :
    (queryLoop a entry idx tiles w cc).calculate_cost = cc := by
  induction tiles generalizing w cc with
  | nil => rfl
  | cons t rest ih =>
    unfold queryLoop at hl ⊢
    split
    · rfl
    · rename_i hx
      rw [if_neg hx] at hl
      split
      · rfl
      · rename_i hp
        rw [if_neg hp] at hl
        split
        · rfl
        · rename_i hv
          rw [if_neg hv] at hl
          simp only [h, Bool.false_eq_true, if_false] at hl ⊢
          exact ih w cc hl

theorem queryLoop_early_eq (a : LargeSceneryRemoveAction) (entry : SceneryEntry) (idx : Nat)
    (tiles : List LargeSceneryTile) (w : World) (cc : Bool) (failure : Result)
    (h : (queryLoop a entry idx tiles w cc).early = some failure) : failure = noClearance := by
  rw [queryLoop_early] at h
  split at h
  · exact (Option.some.inj h).symm
  · exact absurd h (by simp)

theorem executeLoop_early_eq (a : LargeSceneryRemoveAction) (entry : SceneryEntry)
    (tiles : List LargeSceneryTile) (i : Nat) (w : World) (failure : Result)
    (h : (executeLoop a entry tiles i w).1 = some failure) : failure = noClearance := by
  rw [executeLoop_early] at h
  split at h
  · exact (Option.some.inj h).symm
  · exact absurd h (by simp)

theorem Query_ok (a : LargeSceneryRemoveAction) (w : World)
    (h : (Query a w).1.Error = Status.Ok) :
    ∃ idx entry, FindLargeSceneryElement a w = some idx ∧ GetEntry a w idx = some entry
      ∧ (queryLoop a entry idx entry.tiles w true).early = none := by
  cases hfind : FindLargeSceneryElement a w with
  | none =>
    rw [Query_find_none a w hfind] at h
    exact Status.noConfusion h
  | some idx =>
    cases hentry : GetEntry a w idx with
    | none =>
      rw [Query_entry_none a w idx hfind hentry] at h
      exact Status.noConfusion h
    | some entry =>
      cases hl : (queryLoop a entry idx entry.tiles w true).early with
      | none => exact ⟨idx, entry, rfl, hentry, hl⟩
      | some failure =>
        rw [Query_early a w idx entry failure hfind hentry hl,
          queryLoop_early_eq a entry idx entry.tiles w true failure hl] at h
        exact Status.noConfusion h

theorem Query_snd (a : LargeSceneryRemoveAction) (w : World) :
    (Query a w).2 = w
      ∨ (hasFlag a.flags GAME_COMMAND_FLAG_PATH_SCENERY = true
          ∧ ∃ idx, FindLargeSceneryElement a w = some idx
              ∧ (Query a w).2 = SetIsAccounted a w idx) := by
  cases hfind : FindLargeSceneryElement a w with
  | none => exact Or.inl (by rw [Query_find_none a w hfind])
  | some idx =>
    cases hentry : GetEntry a w idx with
    | none => exact Or.inl (by rw [Query_entry_none a w idx hfind hentry])
    | some entry =>
      have hw := queryLoop_world a entry idx entry.tiles w true
      have key : (Query a w).2 = (queryLoop a entry idx entry.tiles w true).world := by
        cases hl : (queryLoop a entry idx entry.tiles w true).early with
        | none => rw [Query_done a w idx entry hfind hentry hl]
        | some failure => rw [Query_early a w idx entry failure hfind hentry hl]
      rcases hw with h | h
      · exact Or.inl (key.trans h)
      · exact Or.inr ⟨h.1, idx, rfl, key.trans h.2⟩

theorem scanStack_modifyNth (p : TileElement → Bool) (f : TileElement → TileElement)
    (hf : ∀ e, p (f e) = p e) (l : List TileElement) (k : Nat) :
    scanStack p (modifyNth f l k) = scanStack p l := by
  induction l generalizing k with
  | nil => rfl
  | cons e rest ih =>
    cases k with
    | zero => simp [modifyNth, scanStack, hf]
    | succ k => simp [modifyNth, scanStack, ih]

theorem getElem?_modifyNth (f : TileElement → TileElement) (l : List TileElement)
    (k j : Nat) :
    (modifyNth f l k)[j]? = if j = k then l[j]?.map f else l[j]? := by
  induction l generalizing k j with
  | nil => cases k <;> simp [modifyNth]
  | cons e rest ih =>
    cases k with
    | zero =>
      cases j with
      | zero => simp [modifyNth]
      | succ j => simp [modifyNth]
    | succ k =>
      cases j with
      | zero => simp [modifyNth]
      | succ j => simp [modifyNth, ih]

theorem Find_SetIsAccounted (a : LargeSceneryRemoveAction) (w : World) (idx : Nat) :
    FindLargeSceneryElement a (SetIsAccounted a w idx) = FindLargeSceneryElement a w := by
  unfold FindLargeSceneryElement SetIsAccounted
  rw [map_get_setStack, scanStack_modifyNth]
  intro e
  rfl

theorem GetEntry_SetIsAccounted (a : LargeSceneryRemoveAction) (w : World) (idx j : Nat) :
    GetEntry a (SetIsAccounted a w idx) j = GetEntry a w j := by
  unfold GetEntry resolved SetIsAccounted
  rw [map_get_setStack, getElem?_modifyNth]
  by_cases hj : j = idx
  · rw [if_pos hj]
    cases (map_get_first_element_at w a.loc.x a.loc.y)[j]? with
    | none => rfl
    | some e => rfl
  · rw [if_neg hj]
    cases (map_get_first_element_at w a.loc.x a.loc.y)[j]? with
    | none => rfl
    | some e => rfl

/-- The Result of `Execute` in terms of the target resolution, the definition and the
ownership of the fragments' tiles. -/
theorem Execute_fst (a : LargeSceneryRemoveAction) (w : World) :
    (Execute a w).1
      = match FindLargeSceneryElement a w with
        | none => MakeResult Status.InvalidParameters StringId.STR_INVALID_SELECTION_OF_OBJECTS
        | some idx =>
          match GetEntry a w idx with
          | none => MakeResult Status.Unknown StringId.STR_CANT_REMOVE_THIS
          | some entry =>
            if entry.fragments.any
                (fun t => ownershipChecked w && !w.owned (currentTile a entry t))
            then noClearance
            else { initialResult a w with Cost := entry.removal_price * 10 } := by
  cases hfind : FindLargeSceneryElement a w with
  | none => rw [Execute_find_none a w hfind]
  | some idx =>
    dsimp only
    cases hentry : GetEntry a w idx with
    | none => rw [Execute_entry_none a w idx hfind hentry]
    | some entry =>
      dsimp only
      have he := executeLoop_early a entry entry.tiles 0 (RemoveBannerEntry a w idx)
      by_cases hany : entry.fragments.any
          (fun t => ownershipChecked w && !w.owned (currentTile a entry t)) = true
      · have he' : (executeLoop a entry entry.tiles 0 (RemoveBannerEntry a w idx)).1
            = some noClearance := by
          rw [he]
          exact if_pos hany
        rw [Execute_early a w idx entry noClearance hfind hentry he', if_pos hany]
      · have he' : (executeLoop a entry entry.tiles 0 (RemoveBannerEntry a w idx)).1
            = none := by
          rw [he]
          exact if_neg hany
        rw [Execute_done a w idx entry hfind hentry he', if_neg hany]

theorem Execute_fst_SetIsAccounted (a : LargeSceneryRemoveAction) (w : World) (idx : Nat) :
    (Execute a (SetIsAccounted a w idx)).1 = (Execute a w).1 := by
  rw [Execute_fst a (SetIsAccounted a w idx), Execute_fst a w, Find_SetIsAccounted]
  simp only [GetEntry_SetIsAccounted]
  rfl

theorem any_notOwned_false (a : LargeSceneryRemoveAction) (entry : SceneryEntry) (w : World)
    (l : List LargeSceneryTile)
    (h : l.any (fun t => (ownershipChecked w && !w.owned (currentTile a entry t))
        || !w.valid ⟨(currentTile a entry t).x, (currentTile a entry t).y⟩) = false) :
    l.any (fun t => ownershipChecked w && !w.owned (currentTile a entry t)) = false := by
  induction l with
  | nil => rfl
  | cons t rest ih =>
    rw [List.any_cons, Bool.or_eq_false_iff] at h
    rw [List.any_cons, ih h.2]
    have h1 := h.1
    rw [Bool.or_eq_false_iff] at h1
    rw [h1.1]
    rfl

theorem queryLoop_early_none (a : LargeSceneryRemoveAction) (entry : SceneryEntry)
    (idx : Nat) (w : World) (cc : Bool)
    (h : (queryLoop a entry idx entry.tiles w cc).early = none) :
    entry.fragments.any
      (fun t => ownershipChecked w && !w.owned (currentTile a entry t)) = false := by
  rw [queryLoop_early] at h
  apply any_notOwned_false
  cases hc : List.any entry.fragments
      (fun t => (ownershipChecked w && !w.owned (currentTile a entry t))
        || !w.valid ⟨(currentTile a entry t).x, (currentTile a entry t).y⟩) with
  | false => rfl
  | true =>
    unfold SceneryEntry.fragments at hc
    rw [if_pos hc] at h
    exact absurd h (by simp)

theorem any_notOwned_true (a : LargeSceneryRemoveAction) (entry : SceneryEntry) (w : World)
    (t : LargeSceneryTile) (hmode : ownershipChecked w = true) (ht : t ∈ entry.fragments)
    (hown : w.owned (currentTile a entry t) = false) :
    entry.fragments.any
      (fun t => ownershipChecked w && !w.owned (currentTile a entry t)) = true := by
  rw [List.any_eq_true]
  exact ⟨t, ht, by rw [hmode, hown]; rfl⟩

theorem wrap32_sub_add (x r : Int) (h : InInt32 x) : wrap32 (wrap32 (x - r) + r) = x := by
  unfold InInt32 at h
  unfold wrap32
  omega

/-- The Result of `Query` on each of its return paths: a newly made failure Result, or the
Result filled in at the start with some cost. -/
theorem Query_fst_cases (a : LargeSceneryRemoveAction) (w : World) :
    (Query a w).1 = MakeResult Status.InvalidParameters StringId.STR_INVALID_SELECTION_OF_OBJECTS
      ∨ (Query a w).1 = MakeResult Status.Unknown StringId.STR_CANT_REMOVE_THIS
      ∨ (Query a w).1 = noClearance
      ∨ ∃ cost, (Query a w).1 = { initialResult a w with Cost := cost } := by
  cases hfind : FindLargeSceneryElement a w with
  | none => exact Or.inl (by rw [Query_find_none a w hfind])
  | some idx =>
    cases hentry : GetEntry a w idx with
    | none => exact Or.inr (Or.inl (by rw [Query_entry_none a w idx hfind hentry]))
    | some entry =>
      cases hl : (queryLoop a entry idx entry.tiles w true).early with
      | none =>
        exact Or.inr (Or.inr (Or.inr ⟨_, by rw [Query_done a w idx entry hfind hentry hl]⟩))
      | some failure =>
        refine Or.inr (Or.inr (Or.inl ?_))
        rw [Query_early a w idx entry failure hfind hentry hl,
          queryLoop_early_eq a entry idx entry.tiles w true failure hl]

theorem Execute_fst_cases (a : LargeSceneryRemoveAction) (w : World) :
    (Execute a w).1
        = MakeResult Status.InvalidParameters StringId.STR_INVALID_SELECTION_OF_OBJECTS
      ∨ (Execute a w).1 = MakeResult Status.Unknown StringId.STR_CANT_REMOVE_THIS
      ∨ (Execute a w).1 = noClearance
      ∨ ∃ cost, (Execute a w).1 = { initialResult a w with Cost := cost } := by
  rw [Execute_fst]
  cases FindLargeSceneryElement a w with
  | none => exact Or.inl rfl
  | some idx =>
    dsimp only
    cases GetEntry a w idx with
    | none => exact Or.inr (Or.inl rfl)
    | some entry =>
      dsimp only
      split
      · exact Or.inr (Or.inr (Or.inl rfl))
      · exact Or.inr (Or.inr (Or.inr ⟨_, rfl⟩))

/-! ## Theorems on the claims -/

/-- C1 (counterexample): a batch-mode Query on a one-tile object that is not yet accounted
leaves a world different from the one it started in: the accounted marker of the resolved
element has been set. -/
theorem Query_mutates_in_batch_mode :
    ¬ ((Query (removeCommand 128 0 0 0) (sceneryWorld oneTileEntry false fun _ => true)).2
        = sceneryWorld oneTileEntry false fun _ => true) := by
  intro h
  have h' := congrArg (fun w => w.tiles 0 0) h
  revert h'
  decide

/-- C1 (amended): Query mutates nothing but the accounted marker of the resolved element,
and that only in batch/path-scenery mode: the world after Query is the world before, or
the flag set holds the path-scenery flag and the world after Query is the world before with
the accounted marker of the resolved element set. -/
theorem Query_world_frame (a : LargeSceneryRemoveAction) (w : World) :
    (Query a w).2 = w
      ∨ (hasFlag a.flags GAME_COMMAND_FLAG_PATH_SCENERY = true
          ∧ ∃ idx, FindLargeSceneryElement a w = some idx
              ∧ (Query a w).2 = SetIsAccounted a w idx) := by
  exact Query_snd a w

/-- C4: when no element of the stack at the command's (x, y) is a large-scenery element with
the command's base height, direction and sequence index, Query and Execute both return
invalid-parameters with cost 0 and both leave the world unchanged. -/
theorem no_match_invalid_parameters (a : LargeSceneryRemoveAction) (w : World)
    (h : ∀ e ∈ map_get_first_element_at w a.loc.x a.loc.y,
      ¬ (e.type = TileElementType.LargeScenery ∧ e.baseZ = a.loc.z
          ∧ e.direction = a.loc.direction ∧ e.sequenceIndex = a.tileIndex)) :
    ((Query a w).1.Error = Status.InvalidParameters ∧ (Query a w).1.Cost = 0
        ∧ (Query a w).2 = w)
      ∧ ((Execute a w).1.Error = Status.InvalidParameters ∧ (Execute a w).1.Cost = 0
        ∧ (Execute a w).2 = w) := by
  have hfind := Find_none_of_no_match a w h
  rw [Query_find_none a w hfind, Execute_find_none a w hfind]
  exact ⟨⟨rfl, rfl, rfl⟩, ⟨rfl, rfl, rfl⟩⟩

/-- C4 (witness): in the two-tile world no element at (0,0) has sequence index 5. -/
theorem no_match_invalid_parameters_witness :
    ((Query (removeCommand 0 0 0 5) (sceneryWorld twoTileEntry false fun _ => true)).1.Error
          = Status.InvalidParameters
        ∧ (Query (removeCommand 0 0 0 5) (sceneryWorld twoTileEntry false fun _ => true)).1.Cost
          = 0
        ∧ (Query (removeCommand 0 0 0 5) (sceneryWorld twoTileEntry false fun _ => true)).2
          = sceneryWorld twoTileEntry false fun _ => true)
      ∧ ((Execute (removeCommand 0 0 0 5) (sceneryWorld twoTileEntry false fun _ => true)).1.Error
          = Status.InvalidParameters
        ∧ (Execute (removeCommand 0 0 0 5) (sceneryWorld twoTileEntry false fun _ => true)).1.Cost
          = 0
        ∧ (Execute (removeCommand 0 0 0 5) (sceneryWorld twoTileEntry false fun _ => true)).2
          = sceneryWorld twoTileEntry false fun _ => true) :=
  no_match_invalid_parameters (removeCommand 0 0 0 5)
    (sceneryWorld twoTileEntry false fun _ => true) (by decide)

/-- C2 (the code at the failing input): a two-fragment object at origin (0,0,0), owned by the
park at tile (0,0) but not at tile (1,0), outside editor and sandbox mode. Query and Execute
both return no-clearance, but by then Execute has removed the element of the first fragment,
and with it its banner association, from the stack of tile (0,0). -/
theorem Execute_removes_before_no_clearance :
    (Query (removeCommand 0 0 0 0)
        (sceneryWorld twoTileEntry false fun c => decide (c.x < 32))).1.Error
        = Status.NoClearance
      ∧ (Execute (removeCommand 0 0 0 0)
        (sceneryWorld twoTileEntry false fun c => decide (c.x < 32))).1.Error
        = Status.NoClearance
      ∧ (sceneryWorld twoTileEntry false fun c => decide (c.x < 32)).tiles 0 0
        = [surfaceElement, sceneryElement 0 false (some 7)]
      ∧ (Execute (removeCommand 0 0 0 0)
        (sceneryWorld twoTileEntry false fun c => decide (c.x < 32))).2.tiles 0 0
        = [surfaceElement] := by
  decide

/-- C3 (counterexample): in batch mode, on a one-tile object already marked accounted, Query
returns success with cost 0 while Execute on the same world returns success with cost 50. -/
theorem Query_cost_differs_from_Execute_cost :
    (Query (removeCommand 128 0 0 0) (sceneryWorld oneTileEntry true fun _ => true)).1.Error
        = Status.Ok
      ∧ (Query (removeCommand 128 0 0 0) (sceneryWorld oneTileEntry true fun _ => true)).1.Cost
        = 0
      ∧ (Execute (removeCommand 128 0 0 0) (sceneryWorld oneTileEntry true fun _ => true)).1.Error
        = Status.Ok
      ∧ (Execute (removeCommand 128 0 0 0) (sceneryWorld oneTileEntry true fun _ => true)).1.Cost
        = 50 := by
  decide

/-- C3 (amended): if Query returns success then Execute, run on the world Query started in
or on the world Query left, returns success with cost removal price × 10; Query returned
the same cost, unless the flag set holds the path-scenery flag and Query returned cost 0. -/
theorem Execute_after_successful_Query (a : LargeSceneryRemoveAction) (w : World)
    (h : (Query a w).1.Error = Status.Ok) :
    (Execute a w).1.Error = Status.Ok
      ∧ (Execute a (Query a w).2).1 = (Execute a w).1
      ∧ ∃ entry, queriedEntry a w = some entry
          ∧ (Execute a w).1.Cost = entry.removal_price * 10
          ∧ ((Query a w).1.Cost = (Execute a w).1.Cost
              ∨ (hasFlag a.flags GAME_COMMAND_FLAG_PATH_SCENERY = true
                  ∧ (Query a w).1.Cost = 0)) := by
  obtain ⟨idx, entry, hfind, hentry, hl⟩ := Query_ok a w h
  have hany := queryLoop_early_none a entry idx w true hl
  have hex : (Execute a w).1 = { initialResult a w with Cost := entry.removal_price * 10 } := by
    rw [Execute_fst, hfind]
    dsimp only
    rw [hentry]
    dsimp only
    rw [if_neg (by simp [hany])]
  refine ⟨by rw [hex]; rfl, ?_, entry, by simp [queriedEntry, hfind, hentry], by rw [hex], ?_⟩
  · rcases Query_snd a w with hw | ⟨_, idx', _, hw⟩
    · rw [hw]
    · rw [hw, Execute_fst_SetIsAccounted]
  · rw [hex, Query_done a w idx entry hfind hentry hl]
    by_cases hb : hasFlag a.flags GAME_COMMAND_FLAG_PATH_SCENERY = true
    · by_cases hc : (queryLoop a entry idx entry.tiles w true).calculate_cost = true
      · left
        simp only [hc, if_true]
      · right
        refine ⟨hb, ?_⟩
        simp only [hc]
        rfl
    · left
      have hb' : hasFlag a.flags GAME_COMMAND_FLAG_PATH_SCENERY = false := by simpa using hb
      rw [queryLoop_cost_noBatch a entry idx entry.tiles w true hb' hl]
      rfl

/-- C3 (witness): the two-tile object with removal price 5, queried without flags. -/
theorem Execute_after_successful_Query_witness :
    (Query (removeCommand 0 0 0 0) (sceneryWorld twoTileEntry false fun _ => true)).1.Error
        = Status.Ok
      ∧ (Execute (removeCommand 0 0 0 0)
          (sceneryWorld twoTileEntry false fun _ => true)).1.Error = Status.Ok
      ∧ (Execute (removeCommand 0 0 0 0)
          (sceneryWorld twoTileEntry false fun _ => true)).1.Cost = 50 :=
  ⟨by decide,
    (Execute_after_successful_Query (removeCommand 0 0 0 0)
      (sceneryWorld twoTileEntry false fun _ => true) (by decide)).1,
    by decide⟩

/-- C5: outside editor and sandbox mode, when the target resolves and its definition exists,
if some fragment of the definition, at any position before the sentinel, maps to a tile that
is not owned by the park, then Query and Execute both return no-clearance with the
"land not owned" sub-message. -/
theorem not_owned_no_clearance (a : LargeSceneryRemoveAction) (w : World)
    (entry : SceneryEntry) (t : LargeSceneryTile)
    (heditor : hasFlag w.gScreenFlags SCREEN_FLAGS_SCENARIO_EDITOR = false)
    (hsandbox : w.gCheatsSandboxMode = false)
    (hentry : queriedEntry a w = some entry)
    (ht : t ∈ entry.fragments)
    (hown : w.owned (currentTile a entry t) = false) :
    ((Query a w).1.Error = Status.NoClearance
        ∧ (Query a w).1.ErrorMessage = StringId.STR_LAND_NOT_OWNED_BY_PARK)
      ∧ ((Execute a w).1.Error = Status.NoClearance
        ∧ (Execute a w).1.ErrorMessage = StringId.STR_LAND_NOT_OWNED_BY_PARK) := by
  have hmode : ownershipChecked w = true := by simp [ownershipChecked, heditor, hsandbox]
  have hany := any_notOwned_true a entry w t hmode ht hown
  unfold queriedEntry at hentry
  cases hfind : FindLargeSceneryElement a w with
  | none => rw [hfind] at hentry; exact absurd hentry (by simp)
  | some idx =>
    rw [hfind] at hentry
    have hentry' : GetEntry a w idx = some entry := hentry
    have hq : (Query a w).1 = noClearance := by
      have hl : (queryLoop a entry idx entry.tiles w true).early = some noClearance := by
        rw [queryLoop_early]
        apply if_pos
        rw [List.any_eq_true]
        exact ⟨t, ht, by rw [hmode, hown]; rfl⟩
      rw [Query_early a w idx entry noClearance hfind hentry' hl]
    have he : (Execute a w).1 = noClearance := by
      rw [Execute_fst, hfind]
      dsimp only
      rw [hentry']
      dsimp only
      rw [if_pos hany]
    rw [hq, he]
    exact ⟨⟨rfl, rfl⟩, ⟨rfl, rfl⟩⟩

/-- C5 (witness): the second fragment of the two-tile object lies on tile (1,0), which the
park does not own. -/
theorem not_owned_no_clearance_witness :
    ((Query (removeCommand 0 0 0 0)
          (sceneryWorld twoTileEntry false fun c => decide (c.x < 32))).1.Error
          = Status.NoClearance
        ∧ (Query (removeCommand 0 0 0 0)
          (sceneryWorld twoTileEntry false fun c => decide (c.x < 32))).1.ErrorMessage
          = StringId.STR_LAND_NOT_OWNED_BY_PARK)
      ∧ ((Execute (removeCommand 0 0 0 0)
          (sceneryWorld twoTileEntry false fun c => decide (c.x < 32))).1.Error
          = Status.NoClearance
        ∧ (Execute (removeCommand 0 0 0 0)
          (sceneryWorld twoTileEntry false fun c => decide (c.x < 32))).1.ErrorMessage
          = StringId.STR_LAND_NOT_OWNED_BY_PARK) :=
  not_owned_no_clearance (removeCommand 0 0 0 0)
    (sceneryWorld twoTileEntry false fun c => decide (c.x < 32)) twoTileEntry ⟨32, 0, 0⟩
    (by decide) (by decide) (by decide) (by decide) (by decide)

/-- C6 (the code at the failing input): a two-fragment object that is not yet accounted,
all tiles owned and valid. The first batch-mode Query, on the first fragment, returns
success with cost 0 rather than 50; a second batch-mode Query in the world the first left
returns cost 0 as well, be it the same command again or the command for the second
fragment: the removal price is never charged. -/
theorem batch_Query_charges_nothing_for_two_fragments :
    (Query (removeCommand 128 0 0 0) (sceneryWorld twoTileEntry false fun _ => true)).1.Error
        = Status.Ok
      ∧ (Query (removeCommand 128 0 0 0) (sceneryWorld twoTileEntry false fun _ => true)).1.Cost
        = 0
      ∧ (Query (removeCommand 128 0 0 0)
          (Query (removeCommand 128 0 0 0)
            (sceneryWorld twoTileEntry false fun _ => true)).2).1
        = { initialResult (removeCommand 128 0 0 0)
              (sceneryWorld twoTileEntry false fun _ => true) with Cost := 0 }
      ∧ (Query (removeCommand 128 32 0 1)
          (Query (removeCommand 128 0 0 0)
            (sceneryWorld twoTileEntry false fun _ => true)).2).1
        = { initialResult (removeCommand 128 32 0 1)
              (sceneryWorld twoTileEntry false fun _ => true) with Cost := 0 } := by
  decide

/-- C7: without the path-scenery flag, a Query that returns success returns the removal
price of the resolved element's definition × 10 as its cost, whatever the accounted marker
of the element is. -/
theorem Query_cost_without_batch (a : LargeSceneryRemoveAction) (w : World)
    (hflag : hasFlag a.flags GAME_COMMAND_FLAG_PATH_SCENERY = false)
    (h : (Query a w).1.Error = Status.Ok) :
    ∃ entry, queriedEntry a w = some entry
      ∧ (Query a w).1.Cost = entry.removal_price * 10 := by
  obtain ⟨idx, entry, hfind, hentry, hl⟩ := Query_ok a w h
  refine ⟨entry, by simp [queriedEntry, hfind, hentry], ?_⟩
  rw [Query_done a w idx entry hfind hentry hl,
    queryLoop_cost_noBatch a entry idx entry.tiles w true hflag hl]
  rfl

/-- C7 (witness): a two-tile object at origin (0,0,0), direction 0, removal price 5, already
marked accounted: Query without flags returns success and cost 50. -/
theorem Query_cost_without_batch_witness :
    (Query (removeCommand 0 0 0 0) (sceneryWorld twoTileEntry true fun _ => true)).1.Error
        = Status.Ok
      ∧ (Query (removeCommand 0 0 0 0) (sceneryWorld twoTileEntry true fun _ => true)).1.Cost
        = 50
      ∧ ∃ entry, queriedEntry (removeCommand 0 0 0 0)
            (sceneryWorld twoTileEntry true fun _ => true) = some entry
          ∧ (Query (removeCommand 0 0 0 0)
            (sceneryWorld twoTileEntry true fun _ => true)).1.Cost = entry.removal_price * 10 :=
  ⟨by decide, by decide,
    Query_cost_without_batch (removeCommand 0 0 0 0)
      (sceneryWorld twoTileEntry true fun _ => true) (by decide) (by decide)⟩

/-- C8 (counterexample): a Query and an Execute for a fragment index that matches no element
return invalid-parameters with position (LOCATION_NULL, LOCATION_NULL, LOCATION_NULL) and
category Count, not position (16, 16, 0) and Landscaping; the Result is the very one
returned for a command at another location, (64, 64), so it carries neither position. -/
theorem failure_Result_without_position :
    (Query (removeCommand 0 0 0 5) (sceneryWorld twoTileEntry false fun _ => true)).1.Error
        = Status.InvalidParameters
      ∧ (Query (removeCommand 0 0 0 5) (sceneryWorld twoTileEntry false fun _ => true)).1.Position
        ≠ ⟨16, 16, 0⟩
      ∧ (Query (removeCommand 0 0 0 5)
          (sceneryWorld twoTileEntry false fun _ => true)).1.Expenditure
        ≠ ExpenditureType.Landscaping
      ∧ (Execute (removeCommand 0 0 0 5)
          (sceneryWorld twoTileEntry false fun _ => true)).1.Position ≠ ⟨16, 16, 0⟩
      ∧ (Execute (removeCommand 0 0 0 5)
          (sceneryWorld twoTileEntry false fun _ => true)).1.Expenditure
        ≠ ExpenditureType.Landscaping
      ∧ (Query (removeCommand 0 0 0 5) (sceneryWorld twoTileEntry false fun _ => true)).1
        = (Query (removeCommand 0 64 64 5) (sceneryWorld twoTileEntry false fun _ => true)).1 := by
  decide

/-- C8 (amended): the Result returned by Query and by Execute carries the UI position
(x + 16, y + 16, terrain height at the command's location), in `int32_t` arithmetic, and
the Landscaping category on the success path; on the invalid-parameters, unknown and
no-clearance paths the Result is a newly made one that carries the position and the
category of a newly constructed Result, not those of the command. -/
theorem Result_position_and_category (a : LargeSceneryRemoveAction) (w : World) :
    ((Query a w).1.Position
        = (if (Query a w).1.Error = Status.Ok
            then ⟨wrap32 (a.loc.x + 16), wrap32 (a.loc.y + 16), w.height ⟨a.loc.x, a.loc.y⟩⟩
            else Result.fresh.Position)
      ∧ (Query a w).1.Expenditure
        = (if (Query a w).1.Error = Status.Ok
            then ExpenditureType.Landscaping else Result.fresh.Expenditure))
    ∧ ((Execute a w).1.Position
        = (if (Execute a w).1.Error = Status.Ok
            then ⟨wrap32 (a.loc.x + 16), wrap32 (a.loc.y + 16), w.height ⟨a.loc.x, a.loc.y⟩⟩
            else Result.fresh.Position)
      ∧ (Execute a w).1.Expenditure
        = (if (Execute a w).1.Error = Status.Ok
            then ExpenditureType.Landscaping else Result.fresh.Expenditure)) := by
  constructor
  · rcases Query_fst_cases a w with h | h | h | ⟨cost, h⟩ <;> rw [h] <;> exact ⟨rfl, rfl⟩
  · rcases Execute_fst_cases a w with h | h | h | ⟨cost, h⟩ <;> rw [h] <;> exact ⟨rfl, rfl⟩

theorem u8_load (v v' : Nat) (rest : List Nat) (h : v < 256) :
    DataSerialiser.u8 ⟨false, encodeU8 v ++ rest⟩ v' = some (v, ⟨false, rest⟩) := by
  simp [DataSerialiser.u8, encodeU8]
  omega

theorem u16_load (v v' : Nat) (rest : List Nat) (h : v < 65536) :
    DataSerialiser.u16 ⟨false, encodeU16 v ++ rest⟩ v' = some (v, ⟨false, rest⟩) := by
  simp [DataSerialiser.u16, encodeU16]
  omega

theorem u32_load (v v' : Nat) (rest : List Nat) (h : v < 4294967296) :
    DataSerialiser.u32 ⟨false, encodeU32 v ++ rest⟩ v' = some (v, ⟨false, rest⟩) := by
  simp [DataSerialiser.u32, encodeU32]
  omega

theorem i32_load (v v' : Int) (rest : List Nat) (h : InInt32 v) :
    DataSerialiser.i32 ⟨false, encodeI32 v ++ rest⟩ v' = some (v, ⟨false, rest⟩) := by
  unfold InInt32 at h
  simp [DataSerialiser.i32, encodeI32, encodeU32, wrap32]
  omega

theorem coordsXYZD_load (c c' : CoordsXYZD) (rest : List Nat)
    (hx : InInt32 c.x) (hy : InInt32 c.y) (hz : InInt32 c.z) (hd : c.direction < 256) :
    DataSerialiser.coordsXYZD ⟨false, (Parameter.loc c).encode ++ rest⟩ c'
      = some (c, ⟨false, rest⟩) := by
  simp only [Parameter.encode, List.append_assoc, DataSerialiser.coordsXYZD]
  rw [i32_load _ _ _ hx]
  simp only [Option.bind]
  rw [i32_load _ _ _ hy]
  simp only [Option.bind]
  rw [i32_load _ _ _ hz]
  simp only [Option.bind]
  rw [u8_load _ _ _ hd]

theorem GameAction_Serialise_load (a b : LargeSceneryRemoveAction) (rest : List Nat)
    (hn : a.networkId < 4294967296) (hf : a.flags < 4294967296) (hp : InInt32 a.playerId) :
    GameAction_Serialise b ⟨false, headerBytes a ++ rest⟩
      = some ({ b with networkId := a.networkId, flags := a.flags, playerId := a.playerId },
          ⟨false, rest⟩) := by
  simp only [headerBytes, List.append_assoc, GameAction_Serialise]
  rw [u32_load _ _ _ hn]
  simp only [Option.bind]
  rw [u32_load _ _ _ hf]
  simp only [Option.bind]
  rw [i32_load _ _ _ hp]

/-- C9: Serialise round-trips. Saving a command whose fields are within the ranges of their
types leaves the command as it is and writes the base-class fields followed by the fields
in the order in which AcceptParameters shows them (location, then tile index); loading
those bytes into any action object yields the saved command, with the same location and
the same tile index, and consumes the whole stream. -/
theorem Serialise_roundtrip (a b : LargeSceneryRemoveAction) (h : a.WellTyped) :
    AcceptParameters a = [Parameter.loc a.loc, Parameter.tileIndex a.tileIndex]
      ∧ Serialise a ⟨true, []⟩
        = some (a, ⟨true, headerBytes a ++ encodeParameters (AcceptParameters a)⟩)
      ∧ Serialise b ⟨false, headerBytes a ++ encodeParameters (AcceptParameters a)⟩
        = some (a, ⟨false, []⟩) := by
  obtain ⟨hn, hf, hp, hx, hy, hz, hd, ht⟩ := h
  refine ⟨rfl, ?_, ?_⟩
  · simp [Serialise, GameAction_Serialise, DataSerialiser.coordsXYZD, DataSerialiser.u32,
      DataSerialiser.i32, DataSerialiser.u8, DataSerialiser.u16, headerBytes,
      encodeParameters, AcceptParameters, Parameter.encode]
  · unfold Serialise
    rw [GameAction_Serialise_load a b _ hn hf hp]
    simp only [Option.bind, AcceptParameters, encodeParameters]
    rw [coordsXYZD_load a.loc _ _ hx hy hz hd]
    simp only [Option.bind, Parameter.encode, List.append_nil]
    have := u16_load a.tileIndex b.tileIndex [] ht
    rw [List.append_nil] at this
    rw [this]

/-- C9 (witness): the command for fragment 1 at (-32, 64, 0) with the path-scenery flag,
loaded into a command object for fragment 0 at (0, 0, 0). -/
theorem Serialise_roundtrip_witness :
    Serialise (removeCommand 0 0 0 0)
        ⟨false, headerBytes (removeCommand 128 (-32) 64 1)
          ++ encodeParameters (AcceptParameters (removeCommand 128 (-32) 64 1))⟩
      = some (removeCommand 128 (-32) 64 1, ⟨false, []⟩) :=
  (Serialise_roundtrip (removeCommand 128 (-32) 64 1) (removeCommand 0 0 0 0) (by decide)).2.2

/-! ## Target resolution -/

theorem scanStack_eq_some_iff (p : TileElement → Bool) (l : List TileElement) (k : Nat) :
    scanStack p l = some k
      ↔ ∃ e, l[k]? = some e ∧ p e = true
          ∧ ∀ j e', j < k → l[j]? = some e' → p e' = false := by
  induction l generalizing k with
  | nil => simp [scanStack]
  | cons x rest ih =>
    unfold scanStack
    by_cases hx : p x = true
    · rw [if_pos hx]
      constructor
      · intro h
        have hk : k = 0 := (Option.some.inj h).symm
        subst hk
        exact ⟨x, by simp, hx, fun j e' hj _ => absurd hj (Nat.not_lt_zero j)⟩
      · rintro ⟨e, he, hpe, hall⟩
        cases k with
        | zero => rfl
        | succ k =>
          have := hall 0 x (Nat.succ_pos k) (by simp)
          rw [hx] at this
          exact absurd this (by simp)
    · have hx' : p x = false := by simpa using hx
      rw [if_neg hx]
      cases k with
      | zero =>
        constructor
        · intro h
          cases hs : scanStack p rest with
          | none => rw [hs] at h; exact absurd h (by simp)
          | some m => rw [hs] at h; exact absurd (Option.some.inj h) (Nat.succ_ne_zero m)
        · rintro ⟨e, he, hpe, _⟩
          have hex : x = e := by simpa using he
          rw [← hex, hx'] at hpe
          exact absurd hpe (by simp)
      | succ k =>
        constructor
        · intro h
          have hs : scanStack p rest = some k := by
            cases hs : scanStack p rest with
            | none => rw [hs] at h; exact absurd h (by simp)
            | some m =>
              rw [hs] at h
              have := Option.some.inj h
              simp only [Nat.add_right_cancel_iff] at this
              rw [this]
          obtain ⟨e, he, hpe, hall⟩ := (ih k).1 hs
          refine ⟨e, by simpa using he, hpe, ?_⟩
          intro j e' hj hje
          cases j with
          | zero =>
            have hex : x = e' := by simpa using hje
            rw [← hex]
            exact hx'
          | succ j => exact hall j e' (Nat.lt_of_succ_lt_succ hj) (by simpa using hje)
        · rintro ⟨e, he, hpe, hall⟩
          have hs : scanStack p rest = some k :=
            (ih k).2 ⟨e, by simpa using he, hpe, fun j e' hj hje =>
              hall (j + 1) e' (Nat.succ_lt_succ hj) (by simpa using hje)⟩
          rw [hs]
          rfl

theorem scanStack_eq_none_iff (p : TileElement → Bool) (l : List TileElement) :
    scanStack p l = none ↔ ∀ e ∈ l, p e = false := by
  constructor
  · intro h
    induction l with
    | nil => intro e he; exact absurd he (List.not_mem_nil e)
    | cons x rest ih =>
      unfold scanStack at h
      by_cases hx : p x = true
      · rw [if_pos hx] at h
        exact absurd h (by simp)
      · rw [if_neg hx] at h
        have hr : scanStack p rest = none := by
          cases hs : scanStack p rest with
          | none => rfl
          | some m => rw [hs] at h; exact absurd h (by simp)
        intro e he
        rcases List.mem_cons.1 he with h1 | h1
        · rw [h1]; simpa using hx
        · exact ih hr e h1
  · exact scanStack_eq_none p l

theorem findTest_iff (a : LargeSceneryRemoveAction) (e : TileElement) :
    findTest a e = true
      ↔ (e.type = TileElementType.LargeScenery ∧ e.baseZ = a.loc.z
          ∧ e.direction = a.loc.direction ∧ e.sequenceIndex = a.tileIndex
          ∧ (hasFlag a.flags GAME_COMMAND_FLAG_GHOST = true → e.isGhost = true)) := by
  unfold findTest
  cases hasFlag a.flags GAME_COMMAND_FLAG_GHOST <;> cases e.isGhost <;>
    simp only [Bool.and_eq_true, beq_iff_eq, Bool.not_eq_true', Bool.and_eq_false_imp] <;>
    constructor <;> simp_all

theorem queriedEntry_some (a : LargeSceneryRemoveAction) (w : World) (entry : SceneryEntry)
    (h : queriedEntry a w = some entry) :
    ∃ idx, FindLargeSceneryElement a w = some idx ∧ GetEntry a w idx = some entry := by
  unfold queriedEntry at h
  cases hfind : FindLargeSceneryElement a w with
  | none => rw [hfind] at h; exact absurd h (by simp)
  | some idx => rw [hfind] at h; exact ⟨idx, rfl, h⟩

theorem Execute_fst_of_entry (a : LargeSceneryRemoveAction) (w : World)
    (entry : SceneryEntry) (h : queriedEntry a w = some entry) :
    (Execute a w).1
      = if entry.fragments.any
            (fun t => ownershipChecked w && !w.owned (currentTile a entry t))
        then noClearance
        else { initialResult a w with Cost := entry.removal_price * 10 } := by
  obtain ⟨idx, hfind, hentry⟩ := queriedEntry_some a w entry h
  rw [Execute_fst, hfind]
  dsimp only
  rw [hentry]

/-- C11: when the target resolves to an element whose definition is missing, Query and
Execute both return the unknown status with cost 0 and leave the world as it is: nothing is
removed, no banner association is detached and no accounted marker is set. -/
theorem missing_entry_unknown (a : LargeSceneryRemoveAction) (w : World) (idx : Nat)
    (hfind : FindLargeSceneryElement a w = some idx) (hentry : GetEntry a w idx = none) :
    ((Query a w).1.Error = Status.Unknown ∧ (Query a w).1.Cost = 0 ∧ (Query a w).2 = w)
      ∧ ((Execute a w).1.Error = Status.Unknown ∧ (Execute a w).1.Cost = 0
        ∧ (Execute a w).2 = w) := by
  rw [Query_entry_none a w idx hfind hentry, Execute_entry_none a w idx hfind hentry]
  exact ⟨⟨rfl, rfl, rfl⟩, ⟨rfl, rfl, rfl⟩⟩

/-- C11 (witness): the two-tile object in a world whose object table holds no definition,
in batch mode. -/
theorem missing_entry_unknown_witness :
    ((Query (removeCommand 128 0 0 0) noEntryWorld).1.Error = Status.Unknown
        ∧ (Query (removeCommand 128 0 0 0) noEntryWorld).1.Cost = 0
        ∧ (Query (removeCommand 128 0 0 0) noEntryWorld).2 = noEntryWorld)
      ∧ ((Execute (removeCommand 128 0 0 0) noEntryWorld).1.Error = Status.Unknown
        ∧ (Execute (removeCommand 128 0 0 0) noEntryWorld).1.Cost = 0
        ∧ (Execute (removeCommand 128 0 0 0) noEntryWorld).2 = noEntryWorld) :=
  missing_entry_unknown (removeCommand 128 0 0 0) noEntryWorld 1 (by decide) (by decide)

/-- C12 (counterexample): without the ghost flag the command for the tile of a ghost element
resolves to that ghost element; it is not skipped. -/
theorem ghost_resolved_without_ghost_flag :
    hasFlag (removeCommand 0 0 0 0).flags GAME_COMMAND_FLAG_GHOST = false
      ∧ FindLargeSceneryElement (removeCommand 0 0 0 0) ghostWorld = some 1
      ∧ resolved (removeCommand 0 0 0 0) ghostWorld 1 = some (ghostElement 0)
      ∧ (ghostElement 0).isGhost = true := by
  decide

/-- C12 (amended): when ghost-mode is set in the flags the resolved entity is always a ghost
element; when ghost-mode is not set the ghost marker is not tested, and the resolved entity
is the first element that passes the type, height, sequence-index and direction tests,
whether it is a ghost or not. -/
theorem ghost_mode_resolution (a : LargeSceneryRemoveAction) (w : World) :
    (hasFlag a.flags GAME_COMMAND_FLAG_GHOST = true →
        ∀ idx e, FindLargeSceneryElement a w = some idx → resolved a w idx = some e →
          e.isGhost = true)
      ∧ (hasFlag a.flags GAME_COMMAND_FLAG_GHOST = false →
          FindLargeSceneryElement a w
            = scanStack (fun e => e.type == TileElementType.LargeScenery
                && e.baseZ == a.loc.z && e.sequenceIndex == a.tileIndex
                && e.direction == a.loc.direction)
              (map_get_first_element_at w a.loc.x a.loc.y)) := by
  constructor
  · intro hflag idx e hfind hres
    obtain ⟨e', he', hp, _⟩ := (scanStack_eq_some_iff _ _ _).1 hfind
    unfold resolved at hres
    rw [hres] at he'
    rw [← Option.some.inj he'] at hp
    exact ((findTest_iff a e).1 hp).2.2.2.2 hflag
  · intro hflag
    unfold FindLargeSceneryElement
    congr 1
    funext e
    simp [findTest, hflag]

/-- C12 (witness): with the ghost flag the command for the tile of the ghost resolves to it. -/
theorem ghost_mode_resolution_witness :
    hasFlag (removeCommand 64 0 0 0).flags GAME_COMMAND_FLAG_GHOST = true
      ∧ FindLargeSceneryElement (removeCommand 64 0 0 0) ghostWorld = some 1
      ∧ resolved (removeCommand 64 0 0 0) ghostWorld 1 = some (ghostElement 0)
      ∧ (ghostElement 0).isGhost = true :=
  ⟨by decide, by decide, by decide,
    (ghost_mode_resolution (removeCommand 64 0 0 0) ghostWorld).1 (by decide) 1
      (ghostElement 0) (by decide) (by decide)⟩

/-- C13 (counterexample): with the ghost flag, the stack at (0,0) holds a large-scenery
element with the command's base height, direction and sequence index, and yet
FindLargeSceneryElement returns no element, because that element is not a ghost. -/
theorem Find_skips_non_ghost_match :
    FindLargeSceneryElement (removeCommand 64 0 0 0)
        (sceneryWorld oneTileEntry false fun _ => true) = none
      ∧ (map_get_first_element_at (sceneryWorld oneTileEntry false fun _ => true) 0 0)[1]?
        = some (sceneryElement 0 false (some 7))
      ∧ (sceneryElement 0 false (some 7)).type = TileElementType.LargeScenery
      ∧ (sceneryElement 0 false (some 7)).baseZ = (removeCommand 64 0 0 0).loc.z
      ∧ (sceneryElement 0 false (some 7)).direction = (removeCommand 64 0 0 0).loc.direction
      ∧ (sceneryElement 0 false (some 7)).sequenceIndex = (removeCommand 64 0 0 0).tileIndex := by
  decide

/-- C13 (amended): FindLargeSceneryElement returns the earliest element in stack order whose
type is large scenery, whose base height equals the command's z, whose direction equals the
command's direction, whose sequence index equals the command's tile index and which, when
the ghost flag is set, is a ghost; it returns no element if and only if no element of the
stack satisfies these conditions. -/
theorem Find_first_match (a : LargeSceneryRemoveAction) (w : World) :
    (∀ k, FindLargeSceneryElement a w = some k
        ↔ ∃ e, (map_get_first_element_at w a.loc.x a.loc.y)[k]? = some e
            ∧ (e.type = TileElementType.LargeScenery ∧ e.baseZ = a.loc.z
                ∧ e.direction = a.loc.direction ∧ e.sequenceIndex = a.tileIndex
                ∧ (hasFlag a.flags GAME_COMMAND_FLAG_GHOST = true → e.isGhost = true))
            ∧ ∀ j e', j < k → (map_get_first_element_at w a.loc.x a.loc.y)[j]? = some e' →
                ¬ (e'.type = TileElementType.LargeScenery ∧ e'.baseZ = a.loc.z
                  ∧ e'.direction = a.loc.direction ∧ e'.sequenceIndex = a.tileIndex
                  ∧ (hasFlag a.flags GAME_COMMAND_FLAG_GHOST = true → e'.isGhost = true)))
      ∧ (FindLargeSceneryElement a w = none
        ↔ ∀ e ∈ map_get_first_element_at w a.loc.x a.loc.y,
            ¬ (e.type = TileElementType.LargeScenery ∧ e.baseZ = a.loc.z
              ∧ e.direction = a.loc.direction ∧ e.sequenceIndex = a.tileIndex
              ∧ (hasFlag a.flags GAME_COMMAND_FLAG_GHOST = true → e.isGhost = true))) := by
  constructor
  · intro k
    unfold FindLargeSceneryElement
    rw [scanStack_eq_some_iff]
    constructor
    · rintro ⟨e, he, hp, hall⟩
      refine ⟨e, he, (findTest_iff a e).1 hp, ?_⟩
      intro j e' hj hje hM
      have := hall j e' hj hje
      rw [(findTest_iff a e').2 hM] at this
      exact absurd this (by simp)
    · rintro ⟨e, he, hM, hall⟩
      refine ⟨e, he, (findTest_iff a e).2 hM, ?_⟩
      intro j e' hj hje
      cases hp : findTest a e' with
      | false => rfl
      | true => exact absurd ((findTest_iff a e').1 hp) (hall j e' hj hje)
  · unfold FindLargeSceneryElement
    rw [scanStack_eq_none_iff]
    constructor
    · intro h e he hM
      have := h e he
      rw [(findTest_iff a e).2 hM] at this
      exact absurd this (by simp)
    · intro h e he
      cases hp : findTest a e with
      | false => rfl
      | true => exact absurd ((findTest_iff a e).1 hp) (h e he)

/-- C14 (counterexample): in sandbox mode, the second fragment of the two-tile object lies
outside the map; Query returns no-clearance and Execute returns success. -/
theorem Execute_ignores_bounds :
    sandboxWorld.gCheatsSandboxMode = true
      ∧ sandboxWorld.valid ⟨(currentTile (removeCommand 0 0 0 0) twoTileEntry ⟨32, 0, 0⟩).x,
          (currentTile (removeCommand 0 0 0 0) twoTileEntry ⟨32, 0, 0⟩).y⟩ = false
      ∧ (Query (removeCommand 0 0 0 0) sandboxWorld).1.Error = Status.NoClearance
      ∧ (Execute (removeCommand 0 0 0 0) sandboxWorld).1.Error = Status.Ok := by
  decide

/-- C14 (amended): when the target resolves and its definition exists, if some fragment's
absolute tile lies outside valid world bounds then Query returns no-clearance in every
mode. Execute does not check bounds: it returns no-clearance when the ownership check is
active and some fragment's tile is not owned, and success with cost removal price × 10
otherwise, in particular always in editor or sandbox mode. -/
theorem bounds_checked_by_Query_only (a : LargeSceneryRemoveAction) (w : World)
    (entry : SceneryEntry) (t : LargeSceneryTile)
    (hentry : queriedEntry a w = some entry)
    (ht : t ∈ entry.fragments)
    (hv : w.valid ⟨(currentTile a entry t).x, (currentTile a entry t).y⟩ = false) :
    (Query a w).1.Error = Status.NoClearance
      ∧ (Execute a w).1
        = (if entry.fragments.any
              (fun t => ownershipChecked w && !w.owned (currentTile a entry t))
          then noClearance
          else { initialResult a w with Cost := entry.removal_price * 10 })
      ∧ (ownershipChecked w = false → (Execute a w).1.Error = Status.Ok) := by
  obtain ⟨idx, hfind, hentry'⟩ := queriedEntry_some a w entry hentry
  have hex := Execute_fst_of_entry a w entry hentry
  refine ⟨?_, hex, ?_⟩
  · have hl : (queryLoop a entry idx entry.tiles w true).early = some noClearance := by
      rw [queryLoop_early]
      apply if_pos
      rw [List.any_eq_true]
      exact ⟨t, ht, by rw [hv]; simp⟩
    rw [Query_early a w idx entry noClearance hfind hentry' hl]
    rfl
  · intro hmode
    rw [hex]
    have hany : entry.fragments.any
        (fun t => ownershipChecked w && !w.owned (currentTile a entry t)) = false := by
      rw [List.any_eq_false]
      intro x _
      rw [hmode]
      simp
    rw [hany]
    rfl

/-- C14 (witness): the two-tile object in sandbox mode with its second fragment outside the
map. -/
theorem bounds_checked_by_Query_only_witness :
    (Query (removeCommand 0 0 0 0) sandboxWorld).1.Error = Status.NoClearance
      ∧ ownershipChecked sandboxWorld = false
      ∧ (Execute (removeCommand 0 0 0 0) sandboxWorld).1.Error = Status.Ok :=
  ⟨(bounds_checked_by_Query_only (removeCommand 0 0 0 0) sandboxWorld twoTileEntry ⟨32, 0, 0⟩
      (by decide) (by decide) (by decide)).1,
    by decide, by decide⟩

/-- C17: in editor or sandbox mode, when the target resolves, its definition exists and every
fragment's tile is within valid world bounds, Query returns success whatever the ownership
of the tiles; outside both modes a Query that returns success has found every fragment's
tile owned by the park. -/
theorem editor_sandbox_bypass (a : LargeSceneryRemoveAction) (w : World) :
    ((hasFlag w.gScreenFlags SCREEN_FLAGS_SCENARIO_EDITOR = true
          ∨ w.gCheatsSandboxMode = true) →
        ∀ entry, queriedEntry a w = some entry →
          (∀ t ∈ entry.fragments,
            w.valid ⟨(currentTile a entry t).x, (currentTile a entry t).y⟩ = true) →
          (Query a w).1.Error = Status.Ok)
      ∧ (hasFlag w.gScreenFlags SCREEN_FLAGS_SCENARIO_EDITOR = false →
          w.gCheatsSandboxMode = false →
          (Query a w).1.Error = Status.Ok →
          ∃ entry, queriedEntry a w = some entry
            ∧ ∀ t ∈ entry.fragments, w.owned (currentTile a entry t) = true) := by
  constructor
  · intro hmode entry hentry hvalid
    obtain ⟨idx, hfind, hentry'⟩ := queriedEntry_some a w entry hentry
    have hoc : ownershipChecked w = false := by
      unfold ownershipChecked
      rcases hmode with h | h <;> simp [h]
    have hl : (queryLoop a entry idx entry.tiles w true).early = none := by
      rw [queryLoop_early]
      apply if_neg
      intro hany
      rw [List.any_eq_true] at hany
      obtain ⟨t, ht, hbad⟩ := hany
      have hvt := hvalid t (by unfold SceneryEntry.fragments; exact ht)
      rw [hoc, hvt] at hbad
      exact absurd hbad (by simp)
    rw [Query_done a w idx entry hfind hentry' hl]
    rfl
  · intro heditor hsandbox hok
    obtain ⟨idx, entry, hfind, hentry, hl⟩ := Query_ok a w hok
    refine ⟨entry, by simp [queriedEntry, hfind, hentry], ?_⟩
    have hany := queryLoop_early_none a entry idx w true hl
    rw [List.any_eq_false] at hany
    intro t ht
    have hoc : ownershipChecked w = true := by
      simp [ownershipChecked, heditor, hsandbox]
    have := hany t ht
    rw [hoc] at this
    simpa using this

/-- C17 (witness): in sandbox mode on a map wide enough no tile is owned and Query
succeeds; outside editor and sandbox mode Query succeeds on wholly owned land, and the tile
of the second fragment is owned. -/
theorem editor_sandbox_bypass_witness :
    ((Query (removeCommand 0 0 0 0)
          { sandboxWorld with valid := inMap }).1.Error = Status.Ok)
      ∧ ∃ entry, queriedEntry (removeCommand 0 0 0 0)
            (sceneryWorld twoTileEntry false fun _ => true) = some entry
          ∧ ∀ t ∈ entry.fragments,
              (sceneryWorld twoTileEntry false fun _ => true).owned
                (currentTile (removeCommand 0 0 0 0) entry t) = true :=
  ⟨(editor_sandbox_bypass (removeCommand 0 0 0 0) { sandboxWorld with valid := inMap }).1
      (Or.inr rfl) twoTileEntry (by decide) (by decide),
    (editor_sandbox_bypass (removeCommand 0 0 0 0)
      (sceneryWorld twoTileEntry false fun _ => true)).2 (by decide) (by decide) (by decide)⟩

/-- C20: without the path-scenery flag Query leaves the world unchanged on every path, and
a second Query of the same command, run on the world the first one left, returns the same
Result (status, messages, position, cost, category) and the same world. -/
theorem Query_without_batch_pure (a : LargeSceneryRemoveAction) (w : World)
    (h : hasFlag a.flags GAME_COMMAND_FLAG_PATH_SCENERY = false) :
    (Query a w).2 = w ∧ Query a (Query a w).2 = Query a w := by
  have hw : (Query a w).2 = w := by
    rcases Query_snd a w with h' | h'
    · exact h'
    · rw [h] at h'
      exact absurd h'.1 (by simp)
  exact ⟨hw, by rw [hw]⟩

/-- C20 (witness): the two-tile object queried twice without flags. -/
theorem Query_without_batch_pure_witness :
    (Query (removeCommand 0 0 0 0) (sceneryWorld twoTileEntry false fun _ => true)).2
        = sceneryWorld twoTileEntry false (fun _ => true)
      ∧ Query (removeCommand 0 0 0 0)
          (Query (removeCommand 0 0 0 0) (sceneryWorld twoTileEntry false fun _ => true)).2
        = Query (removeCommand 0 0 0 0) (sceneryWorld twoTileEntry false fun _ => true) :=
  Query_without_batch_pure (removeCommand 0 0 0 0)
    (sceneryWorld twoTileEntry false fun _ => true) (by decide)

/-! ## The removal loop of Execute -/

theorem scanStack_split (p : TileElement → Bool) (l : List TileElement) (k : Nat)
    (h : scanStack p l = some k) :
    ∃ A e B, l = A ++ e :: B ∧ A.length = k ∧ (∀ x ∈ A, p x = false) ∧ p e = true := by
  induction l generalizing k with
  | nil => exact absurd h (by simp [scanStack])
  | cons x rest ih =>
    unfold scanStack at h
    by_cases hx : p x = true
    · rw [if_pos hx] at h
      have hk : k = 0 := (Option.some.inj h).symm
      exact ⟨[], x, rest, rfl, by rw [hk]; rfl, fun y hy => absurd hy (List.not_mem_nil y), hx⟩
    · rw [if_neg hx] at h
      cases hs : scanStack p rest with
      | none => rw [hs] at h; exact absurd h (by simp)
      | some m =>
        rw [hs] at h
        have hk : m + 1 = k := Option.some.inj h
        obtain ⟨A, e, B, hl, hlen, hA, he⟩ := ih m hs
        refine ⟨x :: A, e, B, by rw [hl]; rfl, by rw [← hk, ← hlen]; rfl, ?_, he⟩
        intro y hy
        rcases List.mem_cons.1 hy with h1 | h1
        · rw [h1]; simpa using hx
        · exact hA y h1

theorem eraseIdx_split (A : List TileElement) (e : TileElement) (B : List TileElement) :
    (A ++ e :: B).eraseIdx A.length = A ++ B := by
  induction A with
  | nil => rfl
  | cons x A ih => simp [List.eraseIdx, ih]

theorem filter_eq_nil_of_all_false (p : TileElement → Bool) (A : List TileElement)
    (h : ∀ x ∈ A, p x = false) : A.filter p = [] := by
  rw [List.filter_eq_nil_iff]
  intro x hx hp
  rw [h x hx] at hp
  exact absurd hp (by simp)

theorem filter_eraseIdx_of_disjoint (p q : TileElement → Bool) (l : List TileElement)
    (k : Nat) (h : scanStack p l = some k) (hd : ∀ e, p e = true → q e = false) :
    (l.eraseIdx k).filter q = l.filter q := by
  obtain ⟨A, e, B, hl, hlen, _, he⟩ := scanStack_split p l k h
  rw [hl, ← hlen, eraseIdx_split, List.filter_append, List.filter_append,
    List.filter_cons_of_neg (by rw [hd e he]; simp)]

theorem filter_eraseIdx_self (p : TileElement → Bool) (l : List TileElement)
    (k : Nat) (h : scanStack p l = some k) :
    (l.eraseIdx k).filter p = (l.filter p).tail := by
  obtain ⟨A, e, B, hl, hlen, hA, he⟩ := scanStack_split p l k h
  rw [hl, ← hlen, eraseIdx_split, List.filter_append, List.filter_append,
    filter_eq_nil_of_all_false p A hA, List.filter_cons_of_pos he]
  rfl

theorem filter_of_scanStack_none (p : TileElement → Bool) (l : List TileElement)
    (h : scanStack p l = none) : l.filter p = [] :=
  filter_eq_nil_of_all_false p l ((scanStack_eq_none_iff p l).1 h)

theorem removeTest_disjoint (a : LargeSceneryRemoveAction) (n n' : Nat) (z z' : Int)
    (e : TileElement) (hne : n ≠ n' ∨ z ≠ z') (h : removeTest a n' z' e = true) :
    removeTest a n z e = false := by
  unfold removeTest at h ⊢
  simp only [Bool.and_eq_true, beq_iff_eq] at h
  have hseq : e.sequenceIndex = n' := h.1.1.2
  have hz : e.baseZ = z' := h.1.2
  rcases hne with hn | hn
  · have : (e.sequenceIndex == n) = false := by
      rw [beq_eq_false_iff_ne, hseq]
      exact fun hc => hn hc.symm
    simp [this]
  · have : (e.baseZ == z) = false := by
      rw [beq_eq_false_iff_ne, hz]
      exact fun hc => hn hc.symm
    simp [this]

theorem removeTest_eq_findTest (a : LargeSceneryRemoveAction) :
    removeTest a a.tileIndex a.loc.z = findTest a := by
  funext e
  unfold removeTest findTest
  cases e.type == TileElementType.LargeScenery <;> cases e.baseZ == a.loc.z <;>
    cases e.sequenceIndex == a.tileIndex <;> cases e.direction == a.loc.direction <;> rfl

theorem executeLoop_cons (a : LargeSceneryRemoveAction) (entry : SceneryEntry)
    (t : LargeSceneryTile) (rest : List LargeSceneryTile) (i : Nat) (w : World) :
    executeLoop a entry (t :: rest) i w
      = if t.x_offset = -1 then (none, w)
        else if ownershipChecked w && !w.owned (currentTile a entry t) then
          (some noClearance, w)
        else executeLoop a entry rest (i + 1) (removeFragment a entry t i w) := by
  rw [executeLoop]
  unfold removeFragment
  split
  · rfl
  · split
    · rfl
    · split <;> rfl

theorem removeFragment_tiles (a : LargeSceneryRemoveAction) (entry : SceneryEntry)
    (t : LargeSceneryTile) (i : Nat) (w : World) (tx ty : Int) :
    (removeFragment a entry t i w).tiles tx ty = w.tiles tx ty
      ∨ (tx = (currentTile a entry t).x / 32 ∧ ty = (currentTile a entry t).y / 32
          ∧ ∃ k, scanStack (removeTest a i (currentTile a entry t).z) (w.tiles tx ty) = some k
            ∧ (removeFragment a entry t i w).tiles tx ty = (w.tiles tx ty).eraseIdx k) := by
  unfold removeFragment
  cases hs : scanStack (removeTest a i (currentTile a entry t).z)
      (map_get_first_element_at w (currentTile a entry t).x (currentTile a entry t).y) with
  | none => exact Or.inl rfl
  | some k =>
    by_cases hT : tx = (currentTile a entry t).x / 32 ∧ ty = (currentTile a entry t).y / 32
    · right
      refine ⟨hT.1, hT.2, k, ?_, ?_⟩
      · rw [hT.1, hT.2]; exact hs
      · simp only [tile_element_remove, World.setStack, map_get_first_element_at]
        rw [if_pos hT, hT.1, hT.2]
    · left
      simp only [tile_element_remove, World.setStack]
      rw [if_neg hT]

theorem removeFragment_sublist (a : LargeSceneryRemoveAction) (entry : SceneryEntry)
    (t : LargeSceneryTile) (i : Nat) (w : World) (tx ty : Int) :
    ((removeFragment a entry t i w).tiles tx ty).Sublist (w.tiles tx ty) := by
  rcases removeFragment_tiles a entry t i w tx ty with h | ⟨_, _, k, _, h⟩
  · rw [h]
  · rw [h]; exact List.eraseIdx_sublist _ _

theorem executeLoop_sublist (a : LargeSceneryRemoveAction) (entry : SceneryEntry)
    (tiles : List LargeSceneryTile) (i : Nat) (w : World) (tx ty : Int) :
    ((executeLoop a entry tiles i w).2.tiles tx ty).Sublist (w.tiles tx ty) := by
  induction tiles generalizing i w with
  | nil => exact List.Sublist.refl _
  | cons t rest ih =>
    rw [executeLoop_cons]
    split
    · exact List.Sublist.refl _
    · split
      · exact List.Sublist.refl _
      · exact (ih (i + 1) (removeFragment a entry t i w)).trans
          (removeFragment_sublist a entry t i w tx ty)

theorem takeWhile_cons_fragment (t : LargeSceneryTile) (rest : List LargeSceneryTile)
    (hx : ¬ t.x_offset = -1) :
    List.takeWhile (fun t => t.x_offset != -1) (t :: rest)
      = t :: List.takeWhile (fun t => t.x_offset != -1) rest := by
  have hb : (t.x_offset != -1) = true := by simpa using hx
  simp [List.takeWhile, hb]

theorem takeWhile_cons_sentinel (t : LargeSceneryTile) (rest : List LargeSceneryTile)
    (hx : t.x_offset = -1) :
    List.takeWhile (fun t => t.x_offset != -1) (t :: rest) = [] := by
  simp [List.takeWhile, hx]

theorem removeFragment_filter (a : LargeSceneryRemoveAction) (entry : SceneryEntry)
    (t : LargeSceneryTile) (i : Nat) (w : World) (n : Nat) (z : Int) (tx ty : Int) :
    ((removeFragment a entry t i w).tiles tx ty).filter (removeTest a n z)
        = (w.tiles tx ty).filter (removeTest a n z)
      ∨ (i = n ∧ z = (currentTile a entry t).z
          ∧ tx = (currentTile a entry t).x / 32 ∧ ty = (currentTile a entry t).y / 32
          ∧ ((removeFragment a entry t i w).tiles tx ty).filter (removeTest a n z)
            = ((w.tiles tx ty).filter (removeTest a n z)).tail) := by
  rcases removeFragment_tiles a entry t i w tx ty with h | ⟨hx, hy, k, hs, h⟩
  · left; rw [h]
  · by_cases hnz : n = i ∧ z = (currentTile a entry t).z
    · right
      obtain ⟨hn, hz⟩ := hnz
      refine ⟨hn.symm, hz, hx, hy, ?_⟩
      rw [h, hn, hz]
      exact filter_eraseIdx_self _ _ k hs
    · left
      rw [h]
      apply filter_eraseIdx_of_disjoint _ _ _ k hs
      intro e he
      apply removeTest_disjoint a n i z (currentTile a entry t).z e _ he
      by_cases hn : n = i
      · exact Or.inr (fun hz => hnz ⟨hn, hz⟩)
      · exact Or.inl hn

theorem removeFragment_filter_self (a : LargeSceneryRemoveAction) (entry : SceneryEntry)
    (t : LargeSceneryTile) (i : Nat) (w : World) :
    ((removeFragment a entry t i w).tiles ((currentTile a entry t).x / 32)
        ((currentTile a entry t).y / 32)).filter (removeTest a i (currentTile a entry t).z)
      = ((w.tiles ((currentTile a entry t).x / 32) ((currentTile a entry t).y / 32)).filter
          (removeTest a i (currentTile a entry t).z)).tail := by
  unfold removeFragment
  cases hs : scanStack (removeTest a i (currentTile a entry t).z)
      (map_get_first_element_at w (currentTile a entry t).x (currentTile a entry t).y) with
  | none =>
    have := filter_of_scanStack_none _ _ hs
    unfold map_get_first_element_at at this
    simp only [this]
    rfl
  | some k =>
    have := filter_eraseIdx_self _ _ k hs
    unfold map_get_first_element_at at this
    simp only [tile_element_remove, World.setStack, map_get_first_element_at, and_self,
      if_true]
    exact this

theorem executeLoop_filter_of_disjoint (a : LargeSceneryRemoveAction) (entry : SceneryEntry)
    (q : TileElement → Bool) (tx ty : Int) (tiles : List LargeSceneryTile) (i : Nat)
    (w : World)
    (hd : ∀ m t, (tiles.takeWhile (fun t => t.x_offset != -1))[m]? = some t →
      tx = (currentTile a entry t).x / 32 → ty = (currentTile a entry t).y / 32 →
      ∀ e, removeTest a (i + m) (currentTile a entry t).z e = true → q e = false) :
    ((executeLoop a entry tiles i w).2.tiles tx ty).filter q = (w.tiles tx ty).filter q := by
  induction tiles generalizing i w with
  | nil => rfl
  | cons t rest ih =>
    rw [executeLoop_cons]
    split
    · rfl
    · rename_i hx
      split
      · rfl
      · have hd' : ∀ m t', (rest.takeWhile (fun t => t.x_offset != -1))[m]? = some t' →
            tx = (currentTile a entry t').x / 32 → ty = (currentTile a entry t').y / 32 →
            ∀ e, removeTest a (i + 1 + m) (currentTile a entry t').z e = true → q e = false := by
          intro m t' hm h1 h2 e he
          have hidx : i + (m + 1) = i + 1 + m := by omega
          apply hd (m + 1) t' _ h1 h2 e
          · rw [hidx]; exact he
          · rw [takeWhile_cons_fragment t rest hx]
            simpa using hm
        rw [ih (i + 1) (removeFragment a entry t i w) hd']
        rcases removeFragment_tiles a entry t i w tx ty with h | ⟨h1, h2, k, hs, h⟩
        · rw [h]
        · rw [h]
          apply filter_eraseIdx_of_disjoint _ _ _ k hs
          intro e he
          apply hd 0 t _ h1 h2 e he
          rw [takeWhile_cons_fragment t rest hx]
          simp

theorem executeLoop_filter_later (a : LargeSceneryRemoveAction) (entry : SceneryEntry)
    (n : Nat) (z : Int) (tx ty : Int) (tiles : List LargeSceneryTile) (i : Nat) (w : World)
    (hi : n < i) :
    ((executeLoop a entry tiles i w).2.tiles tx ty).filter (removeTest a n z)
      = (w.tiles tx ty).filter (removeTest a n z) := by
  apply executeLoop_filter_of_disjoint
  intro m t _ _ _ e he
  exact removeTest_disjoint a n (i + m) z _ e (Or.inl (by omega)) he

theorem executeLoop_filter_cases (a : LargeSceneryRemoveAction) (entry : SceneryEntry)
    (n : Nat) (z : Int) (tx ty : Int) (tiles : List LargeSceneryTile) (i : Nat) (w : World) :
    ((executeLoop a entry tiles i w).2.tiles tx ty).filter (removeTest a n z)
        = (w.tiles tx ty).filter (removeTest a n z)
      ∨ ((executeLoop a entry tiles i w).2.tiles tx ty).filter (removeTest a n z)
        = ((w.tiles tx ty).filter (removeTest a n z)).tail := by
  induction tiles generalizing i w with
  | nil => exact Or.inl rfl
  | cons t rest ih =>
    rw [executeLoop_cons]
    split
    · exact Or.inl rfl
    · split
      · exact Or.inl rfl
      · rcases removeFragment_filter a entry t i w n z tx ty with h | ⟨hi, _, _, _, h⟩
        · rw [← h]
          exact ih (i + 1) (removeFragment a entry t i w)
        · right
          rw [← h]
          exact executeLoop_filter_later a entry n z tx ty rest (i + 1) _ (by omega)

theorem executeLoop_filter_exact (a : LargeSceneryRemoveAction) (entry : SceneryEntry)
    (n : Nat) (t : LargeSceneryTile) (tiles : List LargeSceneryTile) (i : Nat) (w : World)
    (hi : i ≤ n)
    (ht : (tiles.takeWhile (fun t => t.x_offset != -1))[n - i]? = some t)
    (hno : (executeLoop a entry tiles i w).1 = none) :
    ((executeLoop a entry tiles i w).2.tiles ((currentTile a entry t).x / 32)
        ((currentTile a entry t).y / 32)).filter (removeTest a n (currentTile a entry t).z)
      = ((w.tiles ((currentTile a entry t).x / 32) ((currentTile a entry t).y / 32)).filter
          (removeTest a n (currentTile a entry t).z)).tail := by
  induction tiles generalizing i w with
  | nil => exact absurd ht (by simp)
  | cons t0 rest ih =>
    rw [executeLoop_cons] at hno ⊢
    by_cases hx : t0.x_offset = -1
    · rw [takeWhile_cons_sentinel t0 rest hx] at ht
      exact absurd ht (by simp)
    · rw [if_neg hx] at hno ⊢
      by_cases hp : (ownershipChecked w && !w.owned (currentTile a entry t0)) = true
      · rw [if_pos hp] at hno
        exact absurd hno (by simp)
      · rw [if_neg hp] at hno ⊢
        rw [takeWhile_cons_fragment t0 rest hx] at ht
        by_cases hn : n = i
        · subst hn
          have ht0 : t0 = t := by simpa using ht
          subst ht0
          rw [executeLoop_filter_later a entry n _ _ _ rest (n + 1) _ (by omega)]
          exact removeFragment_filter_self a entry t0 n w
        · have hlt : i + 1 ≤ n := by omega
          have hidx : n - i = (n - (i + 1)) + 1 := by omega
          rw [hidx] at ht
          have ht' : (rest.takeWhile (fun t => t.x_offset != -1))[n - (i + 1)]? = some t := by
            simpa using ht
          rw [ih (i + 1) (removeFragment a entry t0 i w) hlt ht' hno]
          rcases removeFragment_filter a entry t0 i w n (currentTile a entry t).z
              ((currentTile a entry t).x / 32) ((currentTile a entry t).y / 32)
            with h | ⟨hi', _⟩
          · rw [h]
          · exact absurd hi'.symm hn

/-! ## The world Execute leaves -/

theorem RemoveBannerEntry_tiles (a : LargeSceneryRemoveAction) (w : World) (idx : Nat)
    (tx ty : Int) :
    (RemoveBannerEntry a w idx).tiles tx ty
      = if tx = a.loc.x / 32 ∧ ty = a.loc.y / 32
        then modifyNth detachBanner (w.tiles (a.loc.x / 32) (a.loc.y / 32)) idx
        else w.tiles tx ty := rfl

theorem map_modifyNth {β : Type} (g : TileElement → β) (f : TileElement → TileElement)
    (hf : ∀ e, g (f e) = g e) (l : List TileElement) (k : Nat) :
    (modifyNth f l k).map g = l.map g := by
  induction l generalizing k with
  | nil => rfl
  | cons e rest ih =>
    cases k with
    | zero => simp [modifyNth, hf]
    | succ k => simp [modifyNth, ih]

theorem filter_modifyNth_length (q : TileElement → Bool) (f : TileElement → TileElement)
    (hf : ∀ e, q (f e) = q e) (l : List TileElement) (k : Nat) :
    ((modifyNth f l k).filter q).length = (l.filter q).length := by
  induction l generalizing k with
  | nil => rfl
  | cons e rest ih =>
    cases k with
    | zero =>
      simp only [modifyNth, List.filter_cons, hf]
      split <;> rfl
    | succ k =>
      simp only [modifyNth, List.filter_cons]
      split <;> simp [ih]

theorem modifyNth_split (f : TileElement → TileElement) (A : List TileElement)
    (e : TileElement) (B : List TileElement) :
    modifyNth f (A ++ e :: B) A.length = A ++ f e :: B := by
  induction A with
  | nil => rfl
  | cons x A ih => simp [modifyNth, ih]

theorem filter_modifyNth_first (p : TileElement → Bool) (f : TileElement → TileElement)
    (hf : ∀ e, p (f e) = p e) (l : List TileElement) (k : Nat)
    (h : scanStack p l = some k) :
    ∃ r rest, l[k]? = some r ∧ l.filter p = r :: rest
      ∧ (modifyNth f l k).filter p = f r :: rest := by
  obtain ⟨A, e, B, hl, hlen, hA, he⟩ := scanStack_split p l k h
  refine ⟨e, B.filter p, ?_, ?_, ?_⟩
  · rw [hl, ← hlen, List.getElem?_append_right (Nat.le_refl _)]
    simp
  · rw [hl, List.filter_append, filter_eq_nil_of_all_false p A hA,
      List.filter_cons_of_pos he]
    rfl
  · rw [hl, ← hlen, modifyNth_split, List.filter_append,
      filter_eq_nil_of_all_false p A hA, List.filter_cons_of_pos (by rw [hf]; exact he)]
    rfl

theorem filter_length_RemoveBannerEntry (a : LargeSceneryRemoveAction) (w : World)
    (idx : Nat) (q : TileElement → Bool) (hq : ∀ e, q (detachBanner e) = q e)
    (tx ty : Int) :
    (((RemoveBannerEntry a w idx).tiles tx ty).filter q).length
      = ((w.tiles tx ty).filter q).length := by
  rw [RemoveBannerEntry_tiles]
  split
  · rename_i hT
    rw [filter_modifyNth_length q detachBanner hq, hT.1, hT.2]
  · rfl

theorem map_detachBanner_RemoveBannerEntry (a : LargeSceneryRemoveAction) (w : World)
    (idx : Nat) (tx ty : Int) :
    ((RemoveBannerEntry a w idx).tiles tx ty).map detachBanner
      = (w.tiles tx ty).map detachBanner := by
  rw [RemoveBannerEntry_tiles]
  split
  · rename_i hT
    rw [map_modifyNth detachBanner detachBanner (fun _ => rfl), hT.1, hT.2]
  · rfl

theorem Execute_snd_of_entry (a : LargeSceneryRemoveAction) (w : World) (idx : Nat)
    (entry : SceneryEntry)
    (hfind : FindLargeSceneryElement a w = some idx) (hentry : GetEntry a w idx = some entry) :
    (Execute a w).2 = (executeLoop a entry entry.tiles 0 (RemoveBannerEntry a w idx)).2 := by
  cases hl : (executeLoop a entry entry.tiles 0 (RemoveBannerEntry a w idx)).1 with
  | none => rw [Execute_done a w idx entry hfind hentry hl]
  | some failure => rw [Execute_early a w idx entry failure hfind hentry hl]

theorem Execute_snd_cases (a : LargeSceneryRemoveAction) (w : World) :
    (Execute a w).2 = w
      ∨ ∃ idx entry, FindLargeSceneryElement a w = some idx ∧ GetEntry a w idx = some entry
          ∧ (Execute a w).2
            = (executeLoop a entry entry.tiles 0 (RemoveBannerEntry a w idx)).2 := by
  cases hfind : FindLargeSceneryElement a w with
  | none => exact Or.inl (by rw [Execute_find_none a w hfind])
  | some idx =>
    cases hentry : GetEntry a w idx with
    | none => exact Or.inl (by rw [Execute_entry_none a w idx hfind hentry])
    | some entry => exact Or.inr ⟨idx, entry, rfl, hentry, Execute_snd_of_entry a w idx entry hfind hentry⟩

theorem Execute_ok_loop (a : LargeSceneryRemoveAction) (w : World) (idx : Nat)
    (entry : SceneryEntry)
    (hfind : FindLargeSceneryElement a w = some idx) (hentry : GetEntry a w idx = some entry)
    (hok : (Execute a w).1.Error = Status.Ok) :
    (executeLoop a entry entry.tiles 0 (RemoveBannerEntry a w idx)).1 = none := by
  cases hl : (executeLoop a entry entry.tiles 0 (RemoveBannerEntry a w idx)).1 with
  | none => rfl
  | some failure =>
    rw [Execute_early a w idx entry failure hfind hentry hl,
      executeLoop_early_eq a entry entry.tiles 0 _ failure hl] at hok
    exact Status.noConfusion hok

theorem getElem?_of_takeWhile (p : LargeSceneryTile → Bool) (l : List LargeSceneryTile)
    (n : Nat) (t : LargeSceneryTile) (h : (l.takeWhile p)[n]? = some t) : l[n]? = some t := by
  induction l generalizing n with
  | nil => exact absurd h (by simp)
  | cons x rest ih =>
    rw [List.takeWhile_cons] at h
    split at h
    · cases n with
      | zero => simpa using h
      | succ n => simpa using ih n (by simpa using h)
    · exact absurd h (by simp)

/-- C15: when the target resolves, its definition exists and every fragment's tile passes
the ownership check, Execute returns success with cost removal price × 10, whether or not
the elements of the fragments can be found again; and for every fragment, the elements of
its tile that match it (large scenery, the command's direction, sequence index equal to the
fragment's position, base height equal to the fragment's z, ghost when the ghost flag is
set) are one fewer after Execute if there was one, so a missing fragment does not stop the
removal of the later ones. -/
theorem Execute_best_effort (a : LargeSceneryRemoveAction) (w : World)
    (entry : SceneryEntry)
    (hentry : queriedEntry a w = some entry)
    (hown : ∀ t ∈ entry.fragments,
      ownershipChecked w = true → w.owned (currentTile a entry t) = true) :
    (Execute a w).1.Error = Status.Ok
      ∧ (Execute a w).1.Cost = entry.removal_price * 10
      ∧ ∀ n t, entry.fragments[n]? = some t →
          List.countP (removeTest a n (currentTile a entry t).z)
              (map_get_first_element_at (Execute a w).2
                (currentTile a entry t).x (currentTile a entry t).y)
            = List.countP (removeTest a n (currentTile a entry t).z)
                (map_get_first_element_at w
                  (currentTile a entry t).x (currentTile a entry t).y) - 1 := by
  obtain ⟨idx, hfind, hentry'⟩ := queriedEntry_some a w entry hentry
  have hany : entry.fragments.any
      (fun t => ownershipChecked w && !w.owned (currentTile a entry t)) = false := by
    rw [List.any_eq_false]
    intro t ht hbad
    simp only [Bool.and_eq_true, Bool.not_eq_true'] at hbad
    rw [hown t ht hbad.1] at hbad
    exact absurd hbad.2 (by simp)
  have hex := Execute_fst_of_entry a w entry hentry
  rw [hany] at hex
  have hok : (Execute a w).1.Error = Status.Ok := by rw [hex]; rfl
  refine ⟨hok, by rw [hex]; rfl, ?_⟩
  intro n t ht
  have hno := Execute_ok_loop a w idx entry hfind hentry' hok
  have hexact := executeLoop_filter_exact a entry n t entry.tiles 0
    (RemoveBannerEntry a w idx) (Nat.zero_le n) (by simpa [SceneryEntry.fragments] using ht) hno
  unfold map_get_first_element_at
  rw [List.countP_eq_length_filter, List.countP_eq_length_filter,
    Execute_snd_of_entry a w idx entry hfind hentry', hexact, List.length_tail,
    filter_length_RemoveBannerEntry a w idx (removeTest a n (currentTile a entry t).z)
      (fun _ => rfl)]

/-- C15 (witness): the two-tile object with the element of its first fragment missing,
removed through its second fragment at (32,0): Execute returns success and cost 50, and the
element of the second fragment is gone from tile (1,0). -/
theorem Execute_best_effort_witness :
    ((Execute (removeCommand 0 32 0 1) brokenWorld).1.Error = Status.Ok
        ∧ (Execute (removeCommand 0 32 0 1) brokenWorld).1.Cost = twoTileEntry.removal_price * 10
        ∧ ∀ n t, twoTileEntry.fragments[n]? = some t →
            List.countP
                (removeTest (removeCommand 0 32 0 1) n
                  (currentTile (removeCommand 0 32 0 1) twoTileEntry t).z)
                (map_get_first_element_at (Execute (removeCommand 0 32 0 1) brokenWorld).2
                  (currentTile (removeCommand 0 32 0 1) twoTileEntry t).x
                  (currentTile (removeCommand 0 32 0 1) twoTileEntry t).y)
              = List.countP
                  (removeTest (removeCommand 0 32 0 1) n
                    (currentTile (removeCommand 0 32 0 1) twoTileEntry t).z)
                  (map_get_first_element_at brokenWorld
                    (currentTile (removeCommand 0 32 0 1) twoTileEntry t).x
                    (currentTile (removeCommand 0 32 0 1) twoTileEntry t).y) - 1)
      ∧ brokenWorld.tiles 0 0 = [surfaceElement]
      ∧ brokenWorld.tiles 1 0 = [surfaceElement, sceneryElement 1 false none]
      ∧ (Execute (removeCommand 0 32 0 1) brokenWorld).2.tiles 1 0 = [surfaceElement] :=
  ⟨Execute_best_effort (removeCommand 0 32 0 1) brokenWorld twoTileEntry
      (by decide) (by decide),
    by decide, by decide, by decide⟩

/-- C16 (counterexample): a batch-mode Execute on the two-tile object whose first tile is
not owned gets past target resolution and the definition check and stops with no-clearance;
the resolved element is still on tile (0,0) afterwards and is not marked accounted. -/
theorem Execute_does_not_mark_accounted :
    hasFlag (removeCommand 128 0 0 0).flags GAME_COMMAND_FLAG_PATH_SCENERY = true
      ∧ FindLargeSceneryElement (removeCommand 128 0 0 0)
          (sceneryWorld twoTileEntry false fun c => decide (32 ≤ c.x)) = some 1
      ∧ queriedEntry (removeCommand 128 0 0 0)
          (sceneryWorld twoTileEntry false fun c => decide (32 ≤ c.x)) = some twoTileEntry
      ∧ (Execute (removeCommand 128 0 0 0)
          (sceneryWorld twoTileEntry false fun c => decide (32 ≤ c.x))).1.Error
        = Status.NoClearance
      ∧ (Execute (removeCommand 128 0 0 0)
          (sceneryWorld twoTileEntry false fun c => decide (32 ≤ c.x))).2.tiles 0 0
        = [surfaceElement, sceneryElement 0 false none]
      ∧ (sceneryElement 0 false none).isAccounted = false := by
  decide

/-- C16 (amended): Execute neither honours the accounted-suppression for its returned cost
nor sets the accounted flag. In every mode, batch mode included, the elements of each tile
after Execute are, in order and up to the detached banner association, elements of that
tile before Execute, so every element left in the world has the accounted marker it had
before; and an Execute that returns success returns cost removal price × 10. -/
theorem Execute_keeps_accounted (a : LargeSceneryRemoveAction) (w : World) :
    (∀ tx ty, (((Execute a w).2.tiles tx ty).map detachBanner).Sublist
        ((w.tiles tx ty).map detachBanner))
      ∧ (∀ tx ty, (((Execute a w).2.tiles tx ty).map fun e => e.isAccounted).Sublist
        ((w.tiles tx ty).map fun e => e.isAccounted))
      ∧ (∀ entry, queriedEntry a w = some entry → (Execute a w).1.Error = Status.Ok →
          (Execute a w).1.Cost = entry.removal_price * 10) := by
  have hsub : ∀ tx ty, (((Execute a w).2.tiles tx ty).map detachBanner).Sublist
      ((w.tiles tx ty).map detachBanner) := by
    intro tx ty
    rcases Execute_snd_cases a w with h | ⟨idx, entry, _, _, h⟩
    · rw [h]
    · rw [h, ← map_detachBanner_RemoveBannerEntry a w idx tx ty]
      exact (executeLoop_sublist a entry entry.tiles 0 _ tx ty).map detachBanner
  refine ⟨hsub, ?_, ?_⟩
  · intro tx ty
    have := (hsub tx ty).map (fun e => e.isAccounted)
    simpa [List.map_map, Function.comp_def, detachBanner] using this
  · intro entry hentry hok
    have hex := Execute_fst_of_entry a w entry hentry
    by_cases hany : entry.fragments.any
        (fun t => ownershipChecked w && !w.owned (currentTile a entry t)) = true
    · rw [if_pos hany] at hex
      rw [hex] at hok
      exact Status.noConfusion hok
    · rw [if_neg hany] at hex
      rw [hex]

theorem currentTile_own (a : LargeSceneryRemoveAction) (entry : SceneryEntry)
    (hx : InInt32 a.loc.x) (hy : InInt32 a.loc.y) (hz : InInt32 a.loc.z) :
    currentTile a entry (entry.tileAt a.tileIndex) = ⟨a.loc.x, a.loc.y, a.loc.z⟩ := by
  simp only [currentTile, firstTile, CoordsXYZ.add, CoordsXYZ.sub]
  rw [wrap32_sub_add _ _ hx, wrap32_sub_add _ _ hy, wrap32_sub_add _ _ hz]

theorem tileAt_of_fragment (entry : SceneryEntry) (n : Nat) (t : LargeSceneryTile)
    (h : entry.fragments[n]? = some t) : entry.tileAt n = t := by
  have h' := getElem?_of_takeWhile _ entry.tiles n t h
  unfold SceneryEntry.tileAt
  rw [List.getD_eq_getElem?_getD, h']
  rfl

/-- C18: on an Execute that returns success, for a command at a location in `int32_t` range
whose tile index refers to a fragment before the sentinel, the loop iteration at
i = tile index computes the command's own location, its tests are those of
FindLargeSceneryElement, and the element that FindLargeSceneryElement resolved is removed:
the elements at the command's tile that pass these tests before Execute are the resolved
element followed by those that pass them after Execute. -/
theorem Execute_removes_resolved (a : LargeSceneryRemoveAction) (w : World)
    (entry : SceneryEntry)
    (hok : (Execute a w).1.Error = Status.Ok)
    (hentry : queriedEntry a w = some entry)
    (hidx : a.tileIndex < entry.fragments.length)
    (hx : InInt32 a.loc.x) (hy : InInt32 a.loc.y) (hz : InInt32 a.loc.z) :
    currentTile a entry (entry.tileAt a.tileIndex) = ⟨a.loc.x, a.loc.y, a.loc.z⟩
      ∧ removeTest a a.tileIndex a.loc.z = findTest a
      ∧ ∃ idx r, FindLargeSceneryElement a w = some idx ∧ resolved a w idx = some r
          ∧ (map_get_first_element_at w a.loc.x a.loc.y).filter (findTest a)
            = r :: (map_get_first_element_at (Execute a w).2 a.loc.x a.loc.y).filter
                (findTest a) := by
  obtain ⟨idx, hfind, hentry'⟩ := queriedEntry_some a w entry hentry
  have hct := currentTile_own a entry hx hy hz
  refine ⟨hct, removeTest_eq_findTest a, idx, ?_⟩
  have hfr : entry.fragments[a.tileIndex]? = some (entry.fragments[a.tileIndex]) :=
    List.getElem?_eq_getElem hidx
  have htile := tileAt_of_fragment entry a.tileIndex _ hfr
  rw [← htile] at hfr
  have hno := Execute_ok_loop a w idx entry hfind hentry' hok
  have hexact := executeLoop_filter_exact a entry a.tileIndex (entry.tileAt a.tileIndex)
    entry.tiles 0 (RemoveBannerEntry a w idx) (Nat.zero_le _)
    (by simpa [SceneryEntry.fragments] using hfr) hno
  rw [hct] at hexact
  simp only [removeTest_eq_findTest] at hexact
  obtain ⟨r, rest, hr, hfw, hfw0⟩ := filter_modifyNth_first (findTest a) detachBanner
    (fun _ => rfl) (map_get_first_element_at w a.loc.x a.loc.y) idx hfind
  refine ⟨r, hfind, hr, ?_⟩
  rw [hfw]
  congr 1
  unfold map_get_first_element_at
  rw [Execute_snd_of_entry a w idx entry hfind hentry', hexact, RemoveBannerEntry_tiles,
    if_pos ⟨rfl, rfl⟩]
  unfold map_get_first_element_at at hfw0
  rw [hfw0]
  rfl

/-- C18 (witness): the two-tile object removed through its second fragment at (32,0): the
resolved element is the only match on tile (1,0) before Execute and none is left after. -/
theorem Execute_removes_resolved_witness :
    (Execute (removeCommand 0 32 0 1)
        (sceneryWorld twoTileEntry false fun _ => true)).1.Error = Status.Ok
      ∧ (map_get_first_element_at (sceneryWorld twoTileEntry false fun _ => true) 32 0).filter
          (findTest (removeCommand 0 32 0 1)) = [sceneryElement 1 false none]
      ∧ (map_get_first_element_at
          (Execute (removeCommand 0 32 0 1)
            (sceneryWorld twoTileEntry false fun _ => true)).2 32 0).filter
          (findTest (removeCommand 0 32 0 1)) = []
      ∧ ∃ idx r, FindLargeSceneryElement (removeCommand 0 32 0 1)
            (sceneryWorld twoTileEntry false fun _ => true) = some idx
          ∧ resolved (removeCommand 0 32 0 1)
            (sceneryWorld twoTileEntry false fun _ => true) idx = some r
          ∧ (map_get_first_element_at (sceneryWorld twoTileEntry false fun _ => true)
              (removeCommand 0 32 0 1).loc.x (removeCommand 0 32 0 1).loc.y).filter
              (findTest (removeCommand 0 32 0 1))
            = r :: (map_get_first_element_at
                (Execute (removeCommand 0 32 0 1)
                  (sceneryWorld twoTileEntry false fun _ => true)).2
                (removeCommand 0 32 0 1).loc.x (removeCommand 0 32 0 1).loc.y).filter
                (findTest (removeCommand 0 32 0 1)) :=
  ⟨by decide, by decide, by decide,
    (Execute_removes_resolved (removeCommand 0 32 0 1)
      (sceneryWorld twoTileEntry false fun _ => true) twoTileEntry
      (by decide) (by decide) (by decide) (by decide) (by decide) (by decide)).2.2⟩

/-- C19: Execute only removes elements, at most one per fragment, each of them a match of
its fragment. When the target or its definition is missing the world is unchanged.
Otherwise, with the banner association of the resolved element detached, the stack of
every tile after Execute is a sublist of the stack before (the elements left are in place
and in the same relative order); for every fragment position, tile and height the large-
scenery elements with the command's direction, that sequence index and that base height
are at most one fewer; and every kind of element that is no match of a fragment located on
that tile is left as it was. -/
theorem Execute_frame (a : LargeSceneryRemoveAction) (w : World) :
    (queriedEntry a w = none → (Execute a w).2 = w)
      ∧ ∀ idx entry, FindLargeSceneryElement a w = some idx →
          GetEntry a w idx = some entry →
          (∀ tx ty, ((Execute a w).2.tiles tx ty).Sublist
              ((RemoveBannerEntry a w idx).tiles tx ty))
            ∧ (∀ n z tx ty, List.countP (removeTest a n z) (w.tiles tx ty)
                ≤ List.countP (removeTest a n z) ((Execute a w).2.tiles tx ty) + 1)
            ∧ (∀ tx ty (q : TileElement → Bool),
                (∀ n t, entry.fragments[n]? = some t →
                  tx = (currentTile a entry t).x / 32 → ty = (currentTile a entry t).y / 32 →
                  ∀ e, removeTest a n (currentTile a entry t).z e = true → q e = false) →
                ((Execute a w).2.tiles tx ty).filter q
                  = ((RemoveBannerEntry a w idx).tiles tx ty).filter q) := by
  constructor
  · intro hnone
    cases hfind : FindLargeSceneryElement a w with
    | none => rw [Execute_find_none a w hfind]
    | some idx =>
      cases hentry : GetEntry a w idx with
      | none => rw [Execute_entry_none a w idx hfind hentry]
      | some entry =>
        have : queriedEntry a w = some entry := by simp [queriedEntry, hfind, hentry]
        rw [hnone] at this
        exact absurd this (by simp)
  · intro idx entry hfind hentry
    have hsnd := Execute_snd_of_entry a w idx entry hfind hentry
    refine ⟨?_, ?_, ?_⟩
    · intro tx ty
      rw [hsnd]
      exact executeLoop_sublist a entry entry.tiles 0 _ tx ty
    · intro n z tx ty
      rw [List.countP_eq_length_filter, List.countP_eq_length_filter, hsnd,
        ← filter_length_RemoveBannerEntry a w idx (removeTest a n z) (fun _ => rfl) tx ty]
      rcases executeLoop_filter_cases a entry n z tx ty entry.tiles 0
          (RemoveBannerEntry a w idx) with h | h
      · rw [h]; exact Nat.le_succ _
      · rw [h, List.length_tail]; omega
    · intro tx ty q hq
      rw [hsnd]
      apply executeLoop_filter_of_disjoint
      intro m t hm h1 h2 e he
      rw [Nat.zero_add] at he
      exact hq m t (by simpa [SceneryEntry.fragments] using hm) h1 h2 e he

/-! ## Rotation of the fragment offsets -/

theorem wrap32_neg_neg (x : Int) (h : InInt32 x) : wrap32 (-wrap32 (-x)) = x := by
  unfold InInt32 at h
  unfold wrap32
  omega

theorem InInt32_of_InInt16 (v : Int) (h : InInt16 v) : InInt32 v := by
  unfold InInt16 at h
  unfold InInt32
  omega

theorem Rotate_eq_quarterTurns (c : CoordsXY) (d : Nat) (hd : d < 4) (hx : InInt32 c.x) :
    c.Rotate d = Nat.iterate quarterTurn d c := by
  have h3 := wrap32_neg_neg c.x hx
  interval_cases d
  · rfl
  · rfl
  · rfl
  · simp only [CoordsXY.Rotate, Nat.iterate, quarterTurn]
    rw [h3]

theorem Rotate_round_trip (c : CoordsXY) (d : Nat) (hd : d < 4)
    (hx : InInt32 c.x) (hy : InInt32 c.y) :
    (c.Rotate d).Rotate ((4 - d) % 4) = c := by
  have h1 := wrap32_neg_neg c.x hx
  have h2 := wrap32_neg_neg c.y hy
  interval_cases d
  · rfl
  · simp only [CoordsXY.Rotate]
    rw [h1]
  · simp only [CoordsXY.Rotate]
    rw [h1, h2]
  · simp only [CoordsXY.Rotate]
    rw [h2]

theorem tileAt_of_tiles (entry : SceneryEntry) (n : Nat) (t : LargeSceneryTile)
    (h : entry.tiles[n]? = some t) : entry.tileAt n = t := by
  unfold SceneryEntry.tileAt
  rw [List.getD_eq_getElem?_getD, h]
  rfl

theorem currentTile_eq_spec (a : LargeSceneryRemoveAction) (entry : SceneryEntry)
    (own t : LargeSceneryTile) (hd : a.loc.direction < 4)
    (hown : entry.tiles[a.tileIndex]? = some own)
    (hownT : own.WellTyped) (htT : t.WellTyped) :
    currentTile a entry t = specFragmentTile a.loc own t := by
  have ho := Rotate_eq_quarterTurns ⟨own.x_offset, own.y_offset⟩ a.loc.direction hd
    (InInt32_of_InInt16 _ hownT.1)
  have ht := Rotate_eq_quarterTurns ⟨t.x_offset, t.y_offset⟩ a.loc.direction hd
    (InInt32_of_InInt16 _ htT.1)
  simp only [currentTile, firstTile, rotatedOffset, CoordsXYZ.add, CoordsXYZ.sub,
    specFragmentTile, tileAt_of_tiles entry a.tileIndex own hown, ho, ht]

/-- C10: for every direction 0..3, every definition and every command location in `int32_t`
range, with `own` the tile read at the command's tile index and `t` the fragment the loops
of Query and Execute visit at position i: the tile the loops compute for `t` is the spec's
anchor + rotate(offset of t, direction) with anchor = location - rotate(offset of own,
direction), the rotation being direction quarter turns, in 32-bit wrap-around arithmetic;
when i is the command's own tile index that tile is the command's location exactly; the
loops do check that tile, so that outside editor and sandbox mode Query and Execute return
no-clearance when it is not owned; and an offset rotated by the direction and then by the
remaining quarter turns is the offset again. -/
theorem currentTile_rotation (a : LargeSceneryRemoveAction) (entry : SceneryEntry)
    (own t : LargeSceneryTile) (i : Nat)
    (hx : InInt32 a.loc.x) (hy : InInt32 a.loc.y) (hz : InInt32 a.loc.z)
    (hd : a.loc.direction < 4)
    (hown : entry.tiles[a.tileIndex]? = some own) (hownT : own.WellTyped)
    (ht : entry.fragments[i]? = some t) (htT : t.WellTyped) :
    currentTile a entry t = specFragmentTile a.loc own t
      ∧ (i = a.tileIndex →
          own = t ∧ specFragmentTile a.loc own t = ⟨a.loc.x, a.loc.y, a.loc.z⟩
            ∧ currentTile a entry t = ⟨a.loc.x, a.loc.y, a.loc.z⟩)
      ∧ (∀ w, queriedEntry a w = some entry → ownershipChecked w = true →
          w.owned (specFragmentTile a.loc own t) = false →
          (Query a w).1.Error = Status.NoClearance
            ∧ (Execute a w).1.Error = Status.NoClearance)
      ∧ ((CoordsXY.mk t.x_offset t.y_offset).Rotate a.loc.direction).Rotate
          ((4 - a.loc.direction) % 4) = ⟨t.x_offset, t.y_offset⟩ := by
  have hspec := currentTile_eq_spec a entry own t hd hown hownT htT
  refine ⟨hspec, ?_, ?_, ?_⟩
  · intro hi
    rw [hi] at ht
    have h1 := tileAt_of_fragment entry a.tileIndex t ht
    have h2 := tileAt_of_tiles entry a.tileIndex own hown
    have hot : own = t := h2.symm.trans h1
    have hloc : currentTile a entry t = ⟨a.loc.x, a.loc.y, a.loc.z⟩ := by
      rw [← h1]
      exact currentTile_own a entry hx hy hz
    exact ⟨hot, by rw [← hspec]; exact hloc, hloc⟩
  · intro w hentry hmode hnot
    rw [← hspec] at hnot
    have hmem : t ∈ entry.fragments := List.getElem?_mem ht
    have hany := any_notOwned_true a entry w t hmode hmem hnot
    obtain ⟨idx, hfind, hentry'⟩ := queriedEntry_some a w entry hentry
    constructor
    · have hl : (queryLoop a entry idx entry.tiles w true).early = some noClearance := by
        rw [queryLoop_early]
        apply if_pos
        rw [List.any_eq_true]
        exact ⟨t, hmem, by rw [hmode, hnot]; rfl⟩
      rw [Query_early a w idx entry noClearance hfind hentry' hl]
      rfl
    · rw [Execute_fst_of_entry a w entry hentry, if_pos hany]
      rfl
  · exact Rotate_round_trip ⟨t.x_offset, t.y_offset⟩ a.loc.direction hd
      (InInt32_of_InInt16 _ htT.1) (InInt32_of_InInt16 _ htT.2.1)

/-- C10 (witness): the two-tile definition queried through its second fragment at
(2147483647, -2147483648, 16) with direction 3, where the anchor wraps around: the tile of
the second fragment is the location, and the tile of the first fragment is the anchor
(2147483647, 2147483616, 16). -/
theorem currentTile_rotation_witness :
    (currentTile ⟨0, 0, 0, ⟨2147483647, -2147483648, 16, 3⟩, 1⟩ twoTileEntry ⟨32, 0, 0⟩
        = ⟨2147483647, -2147483648, 16⟩)
      ∧ (currentTile ⟨0, 0, 0, ⟨2147483647, -2147483648, 16, 3⟩, 1⟩ twoTileEntry ⟨0, 0, 0⟩
        = specFragmentTile ⟨2147483647, -2147483648, 16, 3⟩ ⟨32, 0, 0⟩ ⟨0, 0, 0⟩)
      ∧ specFragmentTile ⟨2147483647, -2147483648, 16, 3⟩ ⟨32, 0, 0⟩ ⟨0, 0, 0⟩
        = ⟨2147483647, 2147483616, 16⟩ :=
  ⟨((currentTile_rotation ⟨0, 0, 0, ⟨2147483647, -2147483648, 16, 3⟩, 1⟩ twoTileEntry
      ⟨32, 0, 0⟩ ⟨32, 0, 0⟩ 1 (by decide) (by decide) (by decide) (by decide) (by decide)
      (by decide) (by decide) (by decide)).2.1 rfl).2.2,
    (currentTile_rotation ⟨0, 0, 0, ⟨2147483647, -2147483648, 16, 3⟩, 1⟩ twoTileEntry
      ⟨32, 0, 0⟩ ⟨0, 0, 0⟩ 0 (by decide) (by decide) (by decide) (by decide) (by decide)
      (by decide) (by decide) (by decide)).1,
    by decide⟩

end OpenRCT2
